import Mathlib

/-!
Verification of the ComfyUI image-metadata parser (`image_parser.py`).

The Python module is shallowly embedded: JSON-like Python values are the
inductive type `PyVal`, Python exceptions are `PyErr`, and computations that
may raise or recurse unboundedly return the result type `Ex` (with an
explicit fuel parameter standing for Python's unbounded recursion; exhausting
it corresponds to `RecursionError`).  `str.format` is modelled on the
fragment of the format-spec language the module uses (plain `{name}` fields
and `{name:.Nf}` fixed-point fields).
-/

namespace ComfyParser

/-- Python exceptions that the embedded code can raise.
`jsonDecodeError` is `json.JSONDecodeError` (kept distinct because the
source catches exactly that class); `recursionError` is the
`RecursionError` that `json.loads` raises on overly nested input. -/
inductive PyErr where
  | keyError (k : String)
  | typeError (msg : String)
  | valueError (msg : String)
  | indexError (msg : String)
  | attributeError (msg : String)
  | jsonDecodeError (msg : String)
  | recursionError
deriving DecidableEq

/-- JSON-like Python values (`None`, `bool`, `int`, `float`, `str`, `list`,
`dict` with string keys — the only dict keys occurring in the graphs the
parser manipulates).  Floats are modelled as rationals. -/
inductive PyVal where
  | none
  | bool (b : Bool)
  | int (n : Int)
  | float (q : Rat)
  | str (s : String)
  | list (xs : List PyVal)
  | dict (entries : List (String × PyVal))

/-- Result of an embedded Python computation: a value, a raised exception,
or fuel exhaustion (standing for a `RecursionError` on unbounded recursion). -/
inductive Ex (α : Type) where
  | ok (a : α)
  | exn (e : PyErr)
  | fuelOut
deriving DecidableEq

instance : Monad Ex where
  pure a := .ok a
  bind m f := match m with
    | .ok a => f a
    | .exn e => .exn e
    | .fuelOut => .fuelOut

/-- Lift an exception-only computation into `Ex`. -/
def liftE : Except PyErr α → Ex α
  | .ok a => .ok a
  | .error e => .exn e

/-- First-match association lookup (Python dict read, string keys). -/
def findVal (k : String) : List (String × α) → Option α
  | [] => Option.none
  | (k', v) :: rest => if k' = k then some v else findVal k rest

/-- Python `k in d` for a string-keyed dict. -/
def hasKey (k : String) (d : List (String × α)) : Bool :=
  (findVal k d).isSome

/-- Python dict assignment `d[k] = v`: update in place if the key exists,
else append (insertion order preserved). -/
def setVal (k : String) (v : α) : List (String × α) → List (String × α)
  | [] => [(k, v)]
  | (k', v') :: rest => if k' = k then (k', v) :: rest else (k', v') :: setVal k v rest

/-- Python `v is None`. -/
def isNone : PyVal → Bool
  | .none => true
  | _ => false

/-- First-match lookup in an integer-keyed dict (the propagation `mapping`
dicts; Python `bool` slot values compare equal to `0`/`1` and are converted
by the caller). -/
def findSlot (slot : Int) : List (Int × α) → Option α
  | [] => Option.none
  | (k, v) :: rest => if k = slot then some v else findSlot slot rest

/-- Python truthiness (`bool(v)`). -/
def pyTruthy : PyVal → Bool
  | .none => false
  | .bool b => b
  | .int n => n != 0
  | .float q => q.num != 0
  | .str s => !s.isEmpty
  | .list xs => !xs.isEmpty
  | .dict d => !d.isEmpty

/-- The numeric value of a Python number (`bool` is a subclass of `int`). -/
def pyNum : PyVal → Option Rat
  | .bool b => some (if b then 1 else 0)
  | .int n => some (n : Rat)
  | .float q => some q
  | _ => Option.none

/-- Equality of two (normalised) rationals by cross-multiplication (raw
integer arithmetic so that proofs can evaluate it). -/
def ratEq (x y : Rat) : Bool := x.num * y.den = y.num * x.den

/-- Decimal digits of a natural number (e.g. `120 ↦ "120"`). -/
def natDigits (n : Nat) : String := toString n

/-- Fractional decimal digits of `n / d` by long division, at most `k` of
them, stopping when the remainder vanishes. -/
def fracDigits (d : Nat) : Nat → Nat → List Char
  | 0, _ => []
  | k + 1, rem =>
    if rem = 0 then [] else
    (Char.ofNat (48 + rem * 10 / d)) :: fracDigits d k (rem * 10 % d)

/-- `str(float)`: decimal rendering with at least one fractional digit;
fractional digits are produced by long division (exact for the decimal
float literals occurring in the metadata) and capped at 17 places.  All
arithmetic is on the rational's numerator and denominator directly, so
that proofs can evaluate it. -/
def pyStrFloat (q : Rat) : String :=
  let sign := if q.num < 0 then "-" else ""
  let n := q.num.natAbs
  let d := q.den
  let fs := fracDigits d 17 (n % d)
  let fs := if fs = [] then ['0'] else fs
  sign ++ natDigits (n / d) ++ "." ++ String.mk fs

/-- Depth-capped core of Python `repr`: like CPython, rendering gives up on
containers nested deeper than the recursion limit (CPython raises
`RecursionError` there; the metadata in the claims never comes close).
String escaping inside `repr` is not modelled (no claim depends on it). -/
def pyReprD : Nat → PyVal → String
  | _, .none => "None"
  | _, .bool b => if b then "True" else "False"
  | _, .int n => toString n
  | _, .float q => pyStrFloat q
  | _, .str s => "'" ++ s ++ "'"
  | 0, .list _ => "[...]"
  | 0, .dict _ => "\x7b...\x7d"
  | d + 1, .list xs => "[" ++ String.intercalate ", " (xs.map (pyReprD d)) ++ "]"
  | d + 1, .dict es =>
    "\x7b" ++ String.intercalate ", "
      (es.map (fun kv => "'" ++ kv.1 ++ "': " ++ pyReprD d kv.2)) ++ "\x7d"

/-- Python `repr(v)` (depth cap mirroring `sys.getrecursionlimit()`). -/
def pyRepr (v : PyVal) : String := pyReprD 1000 v

/-- Python `str(v)` (on containers it falls back to `repr` of the elements). -/
def pyStr : PyVal → String
  | .str s => s
  | v => pyRepr v

/-- Depth-capped core of Python `==`: numbers compare by value across
`bool`/`int`/`float`, strings by content, containers element-wise.  At the
depth cap container comparisons give up (CPython raises `RecursionError`);
the parser only ever compares values against string constants, which never
recurses. -/
def pyEqD : Nat → PyVal → PyVal → Bool
  | _, .none, .none => true
  | _, .str a, .str b => a = b
  | 0, .list _, .list _ => false
  | 0, .dict _, .dict _ => false
  | d + 1, .list xs, .list ys =>
    xs.length = ys.length && (xs.zip ys).all (fun p => pyEqD d p.1 p.2)
  | d + 1, .dict d1, .dict d2 =>
    d1.length = d2.length &&
      d1.all (fun kv => match findVal kv.1 d2 with
        | some v2 => pyEqD d kv.2 v2
        | Option.none => false)
  | _, a, b =>
    match pyNum a, pyNum b with
    | some x, some y => ratEq x y
    | _, _ => false

/-- Python `a == b`. -/
def pyEq (a b : PyVal) : Bool := pyEqD 1000 a b

/-- Whether `sub` occurs contiguously inside `l` (used for Python's
substring test `sub in s`). -/
def listHasInfix (sub : List Char) : List Char → Bool
  | [] => sub.isEmpty
  | c :: rest => List.isPrefixOf sub (c :: rest) || listHasInfix sub rest

/-- Python `needle in container` (may raise `TypeError`). -/
def pyContains (needle container : PyVal) : Except PyErr Bool :=
  match container with
  | .dict d =>
    match needle with
    | .str s => .ok (hasKey s d)
    | .list _ => .error (.typeError "unhashable type: 'list'")
    | .dict _ => .error (.typeError "unhashable type: 'dict'")
    | _ => .ok false
  | .str s =>
    match needle with
    | .str sub => .ok (listHasInfix sub.data s.data)
    | _ => .error (.typeError "'in <string>' requires string as left operand")
  | .list xs => .ok (xs.any (fun x => pyEq needle x))
  | _ => .error (.typeError "argument of type is not iterable")

/-- Python subscription `container[key]` (may raise). -/
def pySubscript (container key : PyVal) : Except PyErr PyVal :=
  match container with
  | .dict d =>
    match key with
    | .str s =>
      match findVal s d with
      | some v => .ok v
      | Option.none => .error (.keyError s)
    | _ => .error (.keyError (pyRepr key))
  | .list xs =>
    match key with
    | .int n =>
      let i := if n < 0 then n + xs.length else n
      if h : 0 ≤ i ∧ i.toNat < xs.length then .ok (xs.get ⟨i.toNat, h.2⟩)
      else .error (.indexError "list index out of range")
    | .bool b =>
      let i := if b then 1 else 0
      if h : i < xs.length then .ok (xs.get ⟨i, h⟩)
      else .error (.indexError "list index out of range")
    | _ => .error (.typeError "list indices must be integers or slices")
  | .str _ =>
    match key with
    | .int _ => .error (.indexError "string index not modelled")
    | .bool _ => .error (.indexError "string index not modelled")
    | _ => .error (.typeError "string indices must be integers")
  | _ => .error (.typeError "object is not subscriptable")

/-- Python `container.get(key, default)` — a dict method; raises
`AttributeError` on anything that is not a dict. -/
def pyGet (container : PyVal) (key : String) (default : PyVal) : Except PyErr PyVal :=
  match container with
  | .dict d => .ok ((findVal key d).getD default)
  | _ => .error (.attributeError "object has no attribute get")

/-! ### The fragment of `str.format` the module uses -/

/-- The opening brace character. -/
def lbrace : Char := Char.ofNat 123

/-- The closing brace character. -/
def rbrace : Char := Char.ofNat 125

/-- Round half to even of the fraction `n / d` (`d > 0`) — the rounding
CPython's fixed-point formatting uses; the module only ever formats
decimally exact values, where no rounding happens at all.  Raw integer
arithmetic so that proofs can evaluate it. -/
def roundHalfEvenFrac (n d : Int) : Int :=
  let f := Int.fdiv n d
  let r := n - f * d
  if 2 * r < d then f
  else if d < 2 * r then f + 1
  else if f % 2 = 0 then f else f + 1

/-- Left-pad a digit string with zeros to the given width. -/
def padZeros (width : Nat) (s : String) : String :=
  String.mk (List.replicate (width - s.length) '0') ++ s

/-- `format(x, '.Nf')` on the rational `x` with `N = prec`: round
`x * 10^N` half-to-even, then print with `N` decimals. -/
def fixedFormat (q : Rat) (prec : Nat) : String :=
  let i := roundHalfEvenFrac (q.num * (10 : Int) ^ prec) (q.den : Int)
  let sign := if i < 0 then "-" else ""
  let m := i.natAbs
  if prec = 0 then sign ++ natDigits m
  else sign ++ natDigits (m / 10 ^ prec) ++ "." ++ padZeros prec (natDigits (m % 10 ^ prec))

/-- Digit characters to a natural number. -/
def digitsToNat (ds : List Char) : Nat :=
  ds.foldl (fun a c => a * 10 + (c.toNat - 48)) 0

/-- Recognise a fixed-point format spec `.Nf`, returning the precision `N`. -/
def parseFixedSpec (spec : String) : Option Nat :=
  match spec.data with
  | '.' :: rest =>
    let ds := rest.dropLast
    if rest.getLastD ' ' = 'f' && !ds.isEmpty && ds.all Char.isDigit
    then some (digitsToNat ds) else Option.none
  | _ => Option.none

/-- Apply a format specification to a value, as CPython's `format(value,
spec)` does, modelled on the fragment the module uses: the empty spec (plain
`str` conversion, valid for every value) and fixed-point specs `.Nf` (valid
for numbers, `ValueError`/`TypeError` otherwise).  Any other spec is
rejected with `ValueError`; none appears in the module's rule catalog or
field templates. -/
def formatSpecApply (spec : String) (v : PyVal) : Except PyErr String :=
  if spec = "" then .ok (pyStr v) else
  match parseFixedSpec spec with
  | some prec =>
    match v with
    | .int n => .ok (fixedFormat (n : Rat) prec)
    | .float q => .ok (fixedFormat q prec)
    | .bool b => .ok (fixedFormat (if b then 1 else 0) prec)
    | .str _ => .error (.valueError "Unknown format code f for object of type str")
    | .none => .error (.typeError "unsupported format string passed to NoneType.__format__")
    | .list _ => .error (.typeError "unsupported format string passed to list.__format__")
    | .dict _ => .error (.typeError "unsupported format string passed to dict.__format__")
  | Option.none => .error (.valueError "Invalid format specifier")

/-- Scanner core of `str.format(**args)` over the template's characters.
`args` is the keyword-argument dict; a replacement field `{name:spec}` looks
`name` up in it (`KeyError` if absent — `str.format` does not use defaults)
and applies `spec` via `formatSpecApply`.  Empty field names would be
positional arguments, of which the call passes none (`IndexError`).  The
fuel bounds the number of characters consumed, so `template.length + 1` is
always enough; attribute/index access inside field names is not used by the
module and not modelled (such names simply miss the lookup). -/
def pyFormatGo (args : List (String × PyVal)) : Nat → List Char → Except PyErr String
  | 0, _ => .error (.valueError "format scanner out of fuel")
  | _ + 1, [] => .ok ""
  | f + 1, c :: rest =>
    if c = lbrace then
      match rest with
      | c' :: rest' =>
        if c' = lbrace then (pyFormatGo args f rest').map (fun t => "\x7b" ++ t)
        else
          match rest.findIdx? (fun ch => ch = rbrace) with
          | Option.none => .error (.valueError "expected rbrace before end of string")
          | some i =>
            let fieldText := rest.take i
            let after := rest.drop (i + 1)
            let name := String.mk (fieldText.takeWhile (fun ch => ch ≠ ':'))
            let spec := String.mk ((fieldText.dropWhile (fun ch => ch ≠ ':')).drop 1)
            if name = "" then .error (.indexError "Replacement index out of range") else
            match findVal name args with
            | Option.none => .error (.keyError name)
            | some v =>
              match formatSpecApply spec v with
              | .error e => .error e
              | .ok s => (pyFormatGo args f after).map (fun t => s ++ t)
      | [] => .error (.valueError "Single lbrace encountered in format string")
    else if c = rbrace then
      match rest with
      | c' :: rest' =>
        if c' = rbrace then (pyFormatGo args f rest').map (fun t => "\x7d" ++ t)
        else .error (.valueError "Single rbrace encountered in format string")
      | [] => .error (.valueError "Single rbrace encountered in format string")
    else
      (pyFormatGo args f rest).map (fun t => String.mk [c] ++ t)

/-- Python `template.format(**args)`. -/
def pyFormat (template : String) (args : List (String × PyVal)) : Except PyErr String :=
  pyFormatGo args (template.data.length + 1) template.data

/-! ### Rule catalog and operation evaluator (image_parser.py lines 5-283) -/

/-- `COMFY_METADATA_PROPAGATE_NONE` (line 5): if a node required for
propagation is None, stop propagation. -/
def COMFY_METADATA_PROPAGATE_NONE : Bool := true

/-- The custom-operation descriptors of `custom_operation` (lines 243-264),
tagged by their `operation_type` with their `operation_input` (and, for
`format`, `keys_to_use`). -/
inductive OperationData where
  | any_of_inputs (operation_input : List String)
  | format (keys_to_use : List String) (operation_input : String)
  | caseless_contains (operation_input : String)

/-- A rule's `class_type` entry: either a plain string (exact match) or an
`any_of_inputs` custom-operation dict. -/
inductive ClassTypeDef where
  | str (s : String)
  | anyOf (operation_input : List String)

/-- A propagation-mapping entry: either a plain input name to follow
(`isinstance(mapping_result, str)` branch) or a `format`
custom-operation dict (`isinstance(mapping_result, dict)` branch). -/
inductive MappingValue where
  | str (input_name : String)
  | op (keys_to_use : List String) (operation_input : String)

/-- One entry of `comfy_nodes_propagation_data`: the `class_type` matcher
and the `mapping` dict from output-slot index to `MappingValue`. -/
structure PropagationRule where
  class_type : ClassTypeDef
  mapping : List (Int × MappingValue)

/-- One entry of `target_comfy_nodes`: the `class_type` matcher and the
`inputs` list of required input names. -/
structure TargetRule where
  class_type : ClassTypeDef
  inputs : List String

/-- `comfy_nodes_propagation_data` (lines 8-159). -/
def comfy_nodes_propagation_data : List PropagationRule := [
  ⟨.str "TagSeparator", [(0, .str "pos_prompt"), (1, .str "neg_prompt")]⟩,
  ⟨.anyOf ["ModelSamplingWaifuDiffusionV", "Mahiro", "ModelSamplingFlux",
    "IPAdapterUnifiedLoader", "IPAdapterAdvanced", "IPAdapter",
    "ApplyFluxIPAdapter", "ApplyAdvancedFluxIPAdapter", "IPAdapterAdvanced"],
   [(0, .str "model")]⟩,
  ⟨.anyOf ["ModelMergeSimple", "ModelMergeAdd", "ModelMergeSubstract"],
   [(0, .op ["model1", "model2"] "{model1} [+] {model2}")]⟩,
  ⟨.anyOf ["CheckpointLoaderSimple", "Checkpoint Loader"], [(0, .str "ckpt_name")]⟩,
  ⟨.anyOf ["UnetLoaderGGUF", "UNETLoader", "UnetLoaderGGUFAdvanced"],
   [(0, .str "unet_name")]⟩,
  ⟨.str "CLIPTextEncode", [(0, .str "text"), (1, .str "clip")]⟩,
  ⟨.str "Seed", [(0, .str "seed")]⟩,
  ⟨.str "KSampler", [(0, .str "latent_image")]⟩,
  ⟨.str "VAEEncode", [(0, .str "pixels")]⟩,
  ⟨.str "LatentBlend", [(0, .str "samples1")]⟩,
  ⟨.str "VAEDecode", [(0, .str "samples")]⟩,
  ⟨.str "ImageBlend", [(0, .str "image1")]⟩,
  ⟨.anyOf ["ImageScaleBy", "ImageUpscaleWithModel"], [(0, .str "image")]⟩,
  ⟨.str "EmptyLatentImage", [(0, .op ["width", "height"] "{width} x {height}")]⟩,
  ⟨.str "LoraLoader", [(0, .op ["model", "lora_name", "strength_model"] "{model}")]⟩,
  ⟨.str "CLIPTextEncodeSDXL", [(0, .str "text_g")]⟩]

/-- `target_comfy_nodes` (lines 161-210). -/
def target_comfy_nodes : List TargetRule := [
  ⟨.anyOf ["KSampler", "KSampler (WAS)"],
   ["model", "positive", "negative", "latent_image", "sampler_name",
    "scheduler", "cfg", "steps", "seed", "denoise"]⟩,
  ⟨.anyOf ["KSamplerAdvanced"],
   ["model", "positive", "negative", "latent_image", "sampler_name",
    "scheduler", "cfg", "steps", "noise_seed"]⟩,
  ⟨.str "LoraLoader", ["lora_name", "strength_model"]⟩]

/-- `format_of_comfy_fields_to_types` (lines 212-225). -/
def format_of_comfy_fields_to_types : List (String × List String) := [
  ("models", ["{model}"]),
  ("pos_prompts", ["{positive}"]),
  ("neg_prompts", ["{negative}"]),
  ("img_gen_sizes", ["{latent_image}"]),
  ("seeds", ["{seed}", "{noise_seed}"]),
  ("steps", ["{steps}"]),
  ("cfg", ["{cfg:.1f}"]),
  ("sampler_name", ["{sampler_name}"]),
  ("scheduler", ["{scheduler}"]),
  ("denoise", ["{denoise:.2f}"]),
  ("loras", ["<{lora_name}> (Strength: {strength_model:.2f})"])]

/-- `comfy_fields_pretty_names` (lines 227-240). -/
def comfy_fields_pretty_names : List (String × String) := [
  ("models", "Model"),
  ("pos_prompts", "Prompt"),
  ("neg_prompts", "Negative Prompt"),
  ("img_gen_sizes", "Size"),
  ("seeds", "Seed"),
  ("loras", "LoRA"),
  ("steps", "Steps"),
  ("cfg", "CFG Scale"),
  ("sampler_name", "Sampler"),
  ("scheduler", "Scheduler"),
  ("denoise", "Denoise")]

/-- Line 254: `format_args = {key: input_object.get(key, "{key}") for key
in keys_to_use}` (raises `AttributeError` if `input_object` is not a dict;
`"{key}"` stands for the literal placeholder text built with an f-string). -/
def buildFormatArgs (input_object : PyVal) :
    List String → List (String × PyVal) → Except PyErr (List (String × PyVal))
  | [], acc => .ok acc
  | key :: rest, acc => do
    let v ← pyGet input_object key (.str ("\x7b" ++ key ++ "\x7d"))
    buildFormatArgs input_object rest (setVal key v acc)

/-- `custom_operation` (lines 243-264): membership test, template
formatting (catching only `KeyError`, line 257), and the case-insensitive
substring test.  The unknown-operation fallback (returns `None`) has no
representable descriptor under the tagged embedding and is omitted. -/
def custom_operation (operation_data : OperationData) (input_object : PyVal) :
    Except PyErr PyVal :=
  match operation_data with
  | .any_of_inputs op_input =>
    .ok (.bool (op_input.any (fun s => pyEq input_object (.str s))))
  | .format keys_to_use format_str => do
    let format_args ← buildFormatArgs input_object keys_to_use []
    match pyFormat format_str format_args with
    | .ok s => .ok (.str s)
    | .error (.keyError _) => .ok (.str format_str)
    | .error e => .error e
  | .caseless_contains op_input =>
    match input_object with
    | .str s => .ok (.bool (listHasInfix op_input.toLower.data s.toLower.data))
    | _ => .ok (.bool false)

/-- `resolve_class_type` (lines 266-279), generic over the rule record via
a `class_type` projection (the source scans heterogeneous rule lists); a
string matcher uses Python `==`, a dict matcher uses `custom_operation`
with `any_of_inputs`, first match wins. -/
def resolve_class_type (node_type : PyVal) (class_type_of : α → ClassTypeDef) :
    List α → Option α
  | [] => Option.none
  | node_format :: rest =>
    match class_type_of node_format with
    | .str s =>
      if pyEq (.str s) node_type then some node_format
      else resolve_class_type node_type class_type_of rest
    | .anyOf names =>
      match custom_operation (.any_of_inputs names) node_type with
      | .ok v =>
        if pyTruthy v then some node_format
        else resolve_class_type node_type class_type_of rest
      | .error _ => resolve_class_type node_type class_type_of rest

/-- `is_comfy_link` (lines 281-283): a list of length 2 whose first element
is a `str` and whose second is an `int` — including Python `bool`, which is
a subclass of `int`. -/
def is_comfy_link : PyVal → Bool
  | .list [.str _, .int _] => true
  | .list [.str _, .bool _] => true
  | _ => false

/-! ### The Link Resolver (`resolve_bypasses`, lines 285-357)

Python's unbounded recursion is modelled with a fuel parameter; exhausting
it (`Ex.fuelOut`) corresponds to CPython's `RecursionError` on cyclic or
extremely deep graphs.  The two recursive functions receive the recursive
occurrence of `resolve_bypasses` as the `resolver` argument. -/

/-- The per-key loop of the formatting branch (lines 338-350): resolve each
input the formatting operation needs; `.ok Option.none` models the early
`return None` exits (missing key or, under the propagate-none policy, a key
that resolved to `None`), `.ok (some d)` the completed `resolved_keys`
dict. -/
def resolveFormatKeys (resolver : PyVal → Ex PyVal) (linked_node : PyVal) :
    List String → List (String × PyVal) → Ex (Option (List (String × PyVal)))
  | [], resolved_keys => .ok (some resolved_keys)
  | key :: rest, resolved_keys => do
    let inputsVal ← liftE (pyGet linked_node "inputs" (.dict []))
    let mem ← liftE (pyContains (.str key) inputsVal)
    if !mem then
      if COMFY_METADATA_PROPAGATE_NONE then .ok Option.none
      else
        resolveFormatKeys resolver linked_node rest
          (setVal key (.str ("\x7b" ++ key ++ "\x7d")) resolved_keys)
    else do
      let inputsD ← liftE (pySubscript linked_node (.str "inputs"))
      let linkv ← liftE (pySubscript inputsD (.str key))
      match resolver linkv with
      | .exn e => .exn e
      | .fuelOut => .fuelOut
      | .ok resolved_value =>
        if COMFY_METADATA_PROPAGATE_NONE && isNone resolved_value then .ok Option.none
        else
          resolveFormatKeys resolver linked_node rest
            (setVal key
              (if !isNone resolved_value then resolved_value
               else .str ("\x7b" ++ key ++ "\x7d"))
              resolved_keys)

/-- The body of `resolve_bypasses` after the link has been recognised
(lines 296-357), for the link `(linked_node_id, linked_node_input_id)`. -/
def resolveLink (resolver : PyVal → Ex PyVal) (workflow_data : List (String × PyVal))
    (linked_node_id : String) (linked_node_input_id : Int) : Ex PyVal :=
  if !hasKey linked_node_id workflow_data then
    .ok (.str ("Error: Missing node " ++ linked_node_id))
  else
    let linked_node := (findVal linked_node_id workflow_data).getD .none
    if !pyTruthy linked_node then .ok (.str ("Error: Invalid node " ++ linked_node_id))
    else do
      let hasCT ← liftE (pyContains (.str "class_type") linked_node)
      if !hasCT then .ok (.str ("Error: Invalid node " ++ linked_node_id))
      else do
        let linked_node_type ← liftE (pySubscript linked_node (.str "class_type"))
        match resolve_class_type linked_node_type PropagationRule.class_type
            comfy_nodes_propagation_data with
        | Option.none => .ok .none
        | some propagation_rule =>
          match findSlot linked_node_input_id propagation_rule.mapping with
          | Option.none => .ok .none
          | some (.str input_key_to_follow) => do
            let inputsVal ← liftE (pyGet linked_node "inputs" (.dict []))
            let mem ← liftE (pyContains (.str input_key_to_follow) inputsVal)
            if !mem then .ok .none
            else do
              let inputsD ← liftE (pySubscript linked_node (.str "inputs"))
              let new_link ← liftE (pySubscript inputsD (.str input_key_to_follow))
              resolver new_link
          | some (.op keys_to_use operation_input) =>
            if keys_to_use.isEmpty then .ok .none
            else do
              let res ← resolveFormatKeys resolver linked_node keys_to_use []
              match res with
              | Option.none => .ok .none
              | some resolved_keys =>
                liftE (custom_operation (.format keys_to_use operation_input)
                  (.dict resolved_keys))

/-- `resolve_bypasses` (lines 285-357). -/
def resolve_bypasses (workflow_data : List (String × PyVal)) : Nat → PyVal → Ex PyVal
  | 0, _ => .fuelOut
  | fuel + 1, comfy_link =>
    if isNone comfy_link then .ok .none
    else if !is_comfy_link comfy_link then .ok comfy_link
    else
      match comfy_link with
      | .list [.str linked_node_id, .int n] =>
        resolveLink (resolve_bypasses workflow_data fuel) workflow_data linked_node_id n
      | .list [.str linked_node_id, .bool b] =>
        resolveLink (resolve_bypasses workflow_data fuel) workflow_data linked_node_id
          (if b then 1 else 0)
      | _ => .ok comfy_link

/-! ### The Extractor (`comfyui_get_data`, lines 360-463) -/

/-- Lines 399-408: scan the executable graph for nodes whose `class_type`
matches a target rule; keep, in graph order, the node id, its details and
the matched rule's required input names. -/
def collectTargets (node_dict : List (String × PyVal)) :
    List (String × PyVal × List String) :=
  node_dict.filterMap (fun nd =>
    match nd.2 with
    | .dict entries =>
      match findVal "class_type" entries with
      | some ct =>
        match resolve_class_type ct TargetRule.class_type target_comfy_nodes with
        | some target_format => some (nd.1, nd.2, target_format.inputs)
        | Option.none => Option.none
      | Option.none => Option.none
    | _ => Option.none)

/-- Lines 413-416: resolve each required input that is present among the
node's inputs, building the `resolved_params` dict. -/
def resolveParamsGo (fuel : Nat) (node_dict : List (String × PyVal)) (node_inputs : PyVal) :
    List String → List (String × PyVal) → Ex (List (String × PyVal))
  | [], resolved_params => .ok resolved_params
  | input_key :: rest, resolved_params => do
    let mem ← liftE (pyContains (.str input_key) node_inputs)
    if mem then do
      let lv ← liftE (pySubscript node_inputs (.str input_key))
      match resolve_bypasses node_dict fuel lv with
      | .exn e => .exn e
      | .fuelOut => .fuelOut
      | .ok resolved_value =>
        resolveParamsGo fuel node_dict node_inputs rest
          (setVal input_key resolved_value resolved_params)
    else resolveParamsGo fuel node_dict node_inputs rest resolved_params

/-- Lines 411-416 for one target node: `node_inputs =
node_details.get('inputs', {})`, then the resolution loop. -/
def resolveParams (fuel : Nat) (node_dict : List (String × PyVal)) (node_details : PyVal)
    (required_inputs : List String) : Ex (List (String × PyVal)) := do
  let node_inputs ← liftE (pyGet node_details "inputs" (.dict []))
  resolveParamsGo fuel node_dict node_inputs required_inputs []

/-- Lines 410-416 over all target nodes: the per-node `resolved_params`
dicts, in order. -/
def targetsResolve (fuel : Nat) (node_dict : List (String × PyVal)) :
    List (String × PyVal × List String) → Ex (List (List (String × PyVal)))
  | [] => .ok []
  | t :: rest => do
    let rp ← resolveParams fuel node_dict t.2.1 t.2.2
    let rs ← targetsResolve fuel node_dict rest
    .ok (rp :: rs)

/-- Lines 422-428: try each template of one field against one node's
resolved params; successfully formatted strings are appended if not already
present, `KeyError`/`TypeError`/`ValueError` skip the template, any other
exception propagates. -/
def tryFormats (resolved_params : List (String × PyVal)) :
    List String → List String → Ex (List String)
  | [], acc => .ok acc
  | format_str :: rest, acc =>
    match pyFormat format_str resolved_params with
    | .ok formatted_value =>
      tryFormats resolved_params rest
        (if acc.contains formatted_value then acc else acc ++ [formatted_value])
    | .error (.keyError _) => tryFormats resolved_params rest acc
    | .error (.typeError _) => tryFormats resolved_params rest acc
    | .error (.valueError _) => tryFormats resolved_params rest acc
    | .error e => .exn e

/-- Lines 421-428 for one node: walk `format_of_comfy_fields_to_types`
updating `results_by_type`. -/
def accumNode (resolved_params : List (String × PyVal)) :
    List (String × List String) → List (String × List String) →
    Ex (List (String × List String))
  | [], results_by_type => .ok results_by_type
  | (field_type, format_strings) :: rest, results_by_type => do
    let vals ← tryFormats resolved_params format_strings
      ((findVal field_type results_by_type).getD [])
    accumNode resolved_params rest (setVal field_type vals results_by_type)

/-- Lines 419-428 over all target nodes. -/
def nodesAccum : List (List (String × PyVal)) → List (String × List String) →
    Ex (List (String × List String))
  | [], results_by_type => .ok results_by_type
  | rp :: rest, results_by_type => do
    let results' ← accumNode rp format_of_comfy_fields_to_types results_by_type
    nodesAccum rest results'

/-- Python `str.title()`: the first letter of every alphabetic run is
uppercased, the rest lowercased. -/
def titleCase (s : String) : String :=
  String.mk (s.data.foldl
    (fun (st : List Char × Bool) c =>
      ((st.1 ++ [if st.2 then c.toUpper else c.toLower]), !c.isAlpha))
    ([], true)).1

/-- Lines 434-435: cap a stored value at 1023 characters — a longer string
becomes its first 1020 characters (`val_str[:1020]`) plus `"..."`. -/
def truncateVal (val_str : String) : String :=
  if val_str.length > 1023 then String.mk (val_str.data.take 1020) ++ "..." else val_str

/-- Lines 430-436: flatten `results_by_type` into `extracted_params`,
mapping field keys to pretty display names (humanised fallback) and
truncating overlong values. -/
def extractedParams (results_by_type : List (String × List String)) :
    List (String × String) :=
  results_by_type.flatMap (fun p =>
    let pretty_name := (findVal p.1 comfy_fields_pretty_names).getD
      (titleCase (p.1.replace "_" " "))
    p.2.map (fun value => (pretty_name, truncateVal value)))

/-- Part 1 of `comfyui_get_data` (lines 398-436): extract parameters by
resolving links in the executable graph. -/
def comfyPart1 (fuel : Nat) (prompt_graph : List (String × PyVal)) :
    Ex (List (String × String)) := do
  let resolved ← targetsResolve fuel prompt_graph (collectTargets prompt_graph)
  let results ← nodesAccum resolved
    (format_of_comfy_fields_to_types.map (fun p => (p.1, ([] : List String))))
  .ok (extractedParams results)

/-- Lines 440-441: flatten `extracted_params` into the `final` dict (later
entries win on key collision). -/
def buildFinal (extracted_params : List (String × String)) : List (String × String) :=
  extracted_params.foldl (fun final p => setVal p.1 p.2 final) []

/-- Lines 445-455 for one UI node: a `PrimitiveNode` titled `positive` /
`negative` whose first widget value has truthy string form force-sets
`Prompt` / `Negative Prompt`. -/
def overlayNode (final : List (String × String)) (node : PyVal) :
    Ex (List (String × String)) := do
  let t ← liftE (pyGet node "type" .none)
  if pyEq t (.str "PrimitiveNode") then do
    let title ← liftE (pyGet node "title" .none)
    let hasW ← liftE (pyContains (.str "widgets_values") node)
    let value : Option String ←
      if hasW then do
        let wv ← liftE (pyGet node "widgets_values" .none)
        match wv with
        | .list (w :: _) => pure (some (pyStr w))
        | _ => pure Option.none
      else pure Option.none
    match value with
    | some v =>
      if v ≠ "" then
        if pyEq title (.str "positive") then .ok (setVal "Prompt" v final)
        else if pyEq title (.str "negative") then .ok (setVal "Negative Prompt" v final)
        else .ok final
      else .ok final
    | Option.none => .ok final
  else .ok final

/-- The overlay loop over the UI graph's node list. -/
def overlayLoop : List PyVal → List (String × String) → Ex (List (String × String))
  | [], final => .ok final
  | node :: rest, final => do
    let final' ← overlayNode final node
    overlayLoop rest final'

/-- Lines 443-455: `if workflow_graph and 'nodes' in workflow_graph and
isinstance(workflow_graph.get('nodes'), list)`, then the overlay loop. -/
def comfyOverlay (workflow_graph : PyVal) (final : List (String × String)) :
    Ex (List (String × String)) := do
  if !pyTruthy workflow_graph then .ok final
  else do
    let hasNodes ← liftE (pyContains (.str "nodes") workflow_graph)
    if !hasNodes then .ok final
    else do
      let nodesVal ← liftE (pyGet workflow_graph "nodes" .none)
      match nodesVal with
      | .list nodes => overlayLoop nodes final
      | _ => .ok final

/-- The guarded body of `comfyui_get_data` — everything inside the `try`
(lines 395-457). -/
def comfyBody (fuel : Nat) (prompt_graph : List (String × PyVal))
    (workflow_graph : PyVal) : Ex (List (String × String)) := do
  let extracted_params ←
    if !prompt_graph.isEmpty then comfyPart1 fuel prompt_graph else .ok []
  comfyOverlay workflow_graph (buildFinal extracted_params)

/-- Lines 371-382: the executable graph from the parsed `prompt` JSON.
The JSON decoding of the metadata string is modelled by its result: the
argument is the parsed top-level JSON object (`Option.none` when the field
is absent, not a string, not brace-initial, or unparsable — all cases the
source leaves as an empty graph).  The match mirrors lines 377-380,
unwrapping an API wrapper whose `prompt` key holds a dict. -/
def promptGraphOf : Option (List (String × PyVal)) → List (String × PyVal)
  | some data =>
    match findVal "prompt" data with
    | some (.dict g) => g
    | _ => data
  | Option.none => []

/-- Lines 384-390: the UI graph is the parsed `workflow` object as-is
(empty dict when absent or unparsable). -/
def workflowGraphOf : Option (List (String × PyVal)) → PyVal
  | some data => .dict data
  | Option.none => .dict []

/-- `comfyui_get_data` (lines 360-463): derive the two graphs, return `{}`
immediately if both are empty (line 392), otherwise run the guarded body.
The top-level `except Exception` (lines 459-463) converts any raised
exception to `{}`; `RecursionError` from cyclic/deep graphs (`Ex.fuelOut`
under the fuel model) is an `Exception` subclass and is caught the same
way. -/
def comfyui_get_data (fuel : Nat)
    (prompt_data workflow_data : Option (List (String × PyVal))) :
    List (String × String) :=
  let prompt_graph := promptGraphOf prompt_data
  let workflow_graph := workflowGraphOf workflow_data
  if prompt_graph.isEmpty && !pyTruthy workflow_graph then []
  else
    match comfyBody fuel prompt_graph workflow_graph with
    | .ok final => final
    | .exn _ => []
    | .fuelOut => []

/-! ### The metadata front door: `json.loads` and lines 360-393

The parsing phase (lines 368-393) runs *before* the `try` of line 395 and
catches only `json.JSONDecodeError` locally; any other exception raised by
`json.loads` — in particular the `RecursionError` CPython raises on input
nested more deeply than the recursion limit — escapes to the caller.
`json.loads` itself is modelled on the fragment of JSON the metadata uses
(objects, arrays, strings with the common escapes, integers, simple
decimals, `true`/`false`/`null`; exponents and `\u` escapes are not
modelled). -/

/-- Whitespace as the JSON grammar (and, for the characters that occur in
metadata, `str.strip`) treats it. -/
def isJsonWs (c : Char) : Bool := c = ' ' || c = '\t' || c = '\n' || c = '\r'

/-- Scan a JSON string body after the opening quote; returns the decoded
content and the input after the closing quote. -/
def jsonStringBody : List Char → Except PyErr (List Char × List Char)
  | [] => .error (.jsonDecodeError "Unterminated string")
  | c :: rest =>
    if c = '"' then .ok ([], rest)
    else if c = '\\' then
      match rest with
      | [] => .error (.jsonDecodeError "Unterminated string")
      | e :: rest2 =>
        let dec : Except PyErr Char :=
          if e = '"' then .ok '"'
          else if e = '\\' then .ok '\\'
          else if e = '/' then .ok '/'
          else if e = 'n' then .ok '\n'
          else if e = 't' then .ok '\t'
          else if e = 'r' then .ok '\r'
          else .error (.jsonDecodeError "Invalid escape")
        match dec with
        | .error er => .error er
        | .ok ch =>
          match jsonStringBody rest2 with
          | .error er => .error er
          | .ok (cs, r) => .ok (ch :: cs, r)
    else
      match jsonStringBody rest with
      | .error er => .error er
      | .ok (cs, r) => .ok (c :: cs, r)

/-- Parse a JSON number: an integer, or a simple decimal which becomes a
float whose rational value is built with `mkRat`. -/
def jsonNumber (input : List Char) : Except PyErr (PyVal × List Char) :=
  let (neg, rest) :=
    match input with
    | '-' :: r => (true, r)
    | _ => (false, input)
  let ds := rest.takeWhile Char.isDigit
  let rest2 := rest.dropWhile Char.isDigit
  if ds.isEmpty then .error (.jsonDecodeError "Expecting value")
  else
    match rest2 with
    | '.' :: r3 =>
      let fs := r3.takeWhile Char.isDigit
      let r4 := r3.dropWhile Char.isDigit
      if fs.isEmpty then .error (.jsonDecodeError "Expecting digit after point")
      else
        let n : Int := (digitsToNat (ds ++ fs) : Nat)
        .ok (.float (mkRat (if neg then -n else n) (10 ^ fs.length)), r4)
    | _ =>
      let n : Int := (digitsToNat ds : Nat)
      .ok (.int (if neg then -n else n), rest2)

/-- Parser mode: a value, or the remaining items of an array / object
whose opening bracket has been consumed. -/
inductive JMode where
  | value
  | arrayRest (acc : List PyVal)
  | objectRest (acc : List (String × PyVal))

/-- Recursive-descent JSON parser core.  `fuel` only serves Lean's
termination checker (`2 * length + 4` always suffices); `depth` models
CPython's recursion limit: nesting deeper than it raises
`RecursionError`, exactly as `json.loads` does on deeply nested input. -/
def jsonCore : Nat → Nat → JMode → List Char → Except PyErr (PyVal × List Char)
  | 0, _, _, _ => .error (.jsonDecodeError "parser out of fuel")
  | fuel + 1, depth, .value, input =>
    let input := input.dropWhile isJsonWs
    match input with
    | [] => .error (.jsonDecodeError "Expecting value")
    | c :: rest =>
      if c = '"' then
        match jsonStringBody rest with
        | .error e => .error e
        | .ok (cs, r) => .ok (.str (String.mk cs), r)
      else if c = lbrace then
        if depth = 0 then .error .recursionError
        else
          let r := rest.dropWhile isJsonWs
          match r with
          | c2 :: r2 =>
            if c2 = rbrace then .ok (.dict [], r2)
            else jsonCore fuel depth (.objectRest []) r
          | [] => .error (.jsonDecodeError "Expecting property name")
      else if c = '[' then
        if depth = 0 then .error .recursionError
        else
          let r := rest.dropWhile isJsonWs
          match r with
          | c2 :: r2 =>
            if c2 = ']' then .ok (.list [], r2)
            else jsonCore fuel depth (.arrayRest []) r
          | [] => .error (.jsonDecodeError "Expecting value")
      else if List.isPrefixOf ['t', 'r', 'u', 'e'] input then
        .ok (.bool true, input.drop 4)
      else if List.isPrefixOf ['f', 'a', 'l', 's', 'e'] input then
        .ok (.bool false, input.drop 5)
      else if List.isPrefixOf ['n', 'u', 'l', 'l'] input then
        .ok (.none, input.drop 4)
      else if c.isDigit || c = '-' then jsonNumber input
      else .error (.jsonDecodeError "Expecting value")
  | fuel + 1, depth, .arrayRest acc, input =>
    match jsonCore fuel (depth - 1) .value input with
    | .error e => .error e
    | .ok (v, r) =>
      match r.dropWhile isJsonWs with
      | ',' :: r2 => jsonCore fuel depth (.arrayRest (acc ++ [v])) r2
      | c :: r2 =>
        if c = ']' then .ok (.list (acc ++ [v]), r2)
        else .error (.jsonDecodeError "Expecting comma delimiter")
      | [] => .error (.jsonDecodeError "Expecting comma delimiter")
  | fuel + 1, depth, .objectRest acc, input =>
    match input with
    | c :: rest =>
      if c = '"' then
        match jsonStringBody rest with
        | .error e => .error e
        | .ok (key, r) =>
          match r.dropWhile isJsonWs with
          | ':' :: r2 =>
            match jsonCore fuel (depth - 1) .value r2 with
            | .error e => .error e
            | .ok (v, r3) =>
              match r3.dropWhile isJsonWs with
              | ',' :: r4 =>
                jsonCore fuel depth (.objectRest (setVal (String.mk key) v acc))
                  (r4.dropWhile isJsonWs)
              | c2 :: r4 =>
                if c2 = rbrace then .ok (.dict (setVal (String.mk key) v acc), r4)
                else .error (.jsonDecodeError "Expecting comma delimiter")
              | [] => .error (.jsonDecodeError "Expecting comma delimiter")
          | _ => .error (.jsonDecodeError "Expecting colon delimiter")
      else .error (.jsonDecodeError "Expecting property name")
    | [] => .error (.jsonDecodeError "Expecting property name")

/-- CPython's default recursion limit, which bounds `json.loads`
nesting. -/
def json_recursion_limit : Nat := 1000

/-- `json.loads`: parse a complete JSON document, rejecting trailing
data; raises `JSONDecodeError` on malformed input and `RecursionError`
on nesting beyond the recursion limit, as CPython does. -/
def json_loads (s : String) : Except PyErr PyVal :=
  match jsonCore (2 * s.data.length + 4) json_recursion_limit .value s.data with
  | .error e => .error e
  | .ok (v, rest) =>
    if (rest.dropWhile isJsonWs).isEmpty then .ok v
    else .error (.jsonDecodeError "Extra data")

/-- `s.strip().startswith('\x7b')` (lines 373 and 386). -/
def stripStartsWithBrace (s : String) : Bool :=
  match s.data.dropWhile isJsonWs with
  | c :: _ => c = lbrace
  | [] => false

/-- Lines 371-382: parse and unwrap the executable graph from the raw
`prompt` metadata value.  Only `json.JSONDecodeError` is caught (lines
374/381); any other exception from `json.loads` — in particular
`RecursionError` — propagates, because this code runs before the `try` of
line 395.  The wrapper unwrap of lines 377-380 is `promptGraphOf`. -/
def parse_prompt_graph (prompt_str : PyVal) : Except PyErr (List (String × PyVal)) :=
  match prompt_str with
  | .str s =>
    if pyTruthy (.str s) && stripStartsWithBrace s then
      match json_loads s with
      | .error (.jsonDecodeError _) => .ok []
      | .error e => .error e
      | .ok (.dict entries) => .ok (promptGraphOf (some entries))
      | .ok _ => .ok []
    else .ok []
  | _ => .ok []

/-- Lines 384-390: parse the UI graph from the raw `workflow` metadata
value (the parsed document as-is; empty dict when absent, non-string, not
brace-initial, or malformed).  As above, only `JSONDecodeError` is
caught. -/
def parse_workflow_graph (workflow_str : PyVal) : Except PyErr PyVal :=
  match workflow_str with
  | .str s =>
    if pyTruthy (.str s) && stripStartsWithBrace s then
      match json_loads s with
      | .error (.jsonDecodeError _) => .ok (.dict [])
      | .error e => .error e
      | .ok wg => .ok wg
    else .ok (.dict [])
  | _ => .ok (.dict [])

/-- `comfyui_get_data` (lines 360-463) from the raw metadata dict,
including the JSON parsing phase.  The parse phase runs before the `try`
of line 395, so an exception it raises (other than the locally caught
`JSONDecodeError`) escapes to the caller: the result type is `Ex`, with
`.exn` the escaping exception.  Inside the `try`, every exception —
including `RecursionError` from cyclic graphs, modelled by `Ex.fuelOut` —
becomes the empty Result. -/
def comfyui_get_data_meta (fuel : Nat) (image_info : List (String × PyVal)) :
    Ex (List (String × String)) :=
  match parse_prompt_graph ((findVal "prompt" image_info).getD .none) with
  | .error e => .exn e
  | .ok prompt_graph =>
    match parse_workflow_graph ((findVal "workflow" image_info).getD .none) with
    | .error e => .exn e
    | .ok workflow_graph =>
      if prompt_graph.isEmpty && !pyTruthy workflow_graph then .ok []
      else
        match comfyBody fuel prompt_graph workflow_graph with
        | .ok final => .ok final
        | .exn _ => .ok []
        | .fuelOut => .ok []

/-! ### Concrete inputs used in the theorems below -/

/-- The executable graph of the spec's end-to-end example (also the
module's own `__main__` test graph, lines 468-510). -/
def exampleGraph : List (String × PyVal) := [
  ("3", .dict [("inputs", .dict [("seed", .int 89898989), ("steps", .int 20),
    ("cfg", .float 7), ("sampler_name", .str "dpmpp_2m"), ("scheduler", .str "karras"),
    ("denoise", .float 1), ("model", .list [.str "4", .int 0]),
    ("positive", .list [.str "6", .int 0]), ("negative", .list [.str "7", .int 0]),
    ("latent_image", .list [.str "5", .int 0])]),
    ("class_type", .str "KSampler"), ("_meta", .dict [("title", .str "KSampler")])]),
  ("4", .dict [("inputs", .dict [("ckpt_name", .str "sd_xl_base_1.0.safetensors")]),
    ("class_type", .str "CheckpointLoaderSimple"),
    ("_meta", .dict [("title", .str "Load Checkpoint")])]),
  ("5", .dict [("inputs", .dict [("width", .int 1024), ("height", .int 1024),
    ("batch_size", .int 1)]),
    ("class_type", .str "EmptyLatentImage"),
    ("_meta", .dict [("title", .str "Empty Latent Image")])]),
  ("6", .dict [("inputs", .dict [("text", .str "beautiful landscape painting, epic composition"),
    ("clip", .list [.str "4", .int 1])]),
    ("class_type", .str "CLIPTextEncode"),
    ("_meta", .dict [("title", .str "CLIP Text Encode (Prompt)")])]),
  ("7", .dict [("inputs", .dict [("text", .str "ugly, deformed"),
    ("clip", .list [.str "4", .int 1])]),
    ("class_type", .str "CLIPTextEncode"),
    ("_meta", .dict [("title", .str "CLIP Text Encode (Negative)")])])]

/-- A 2000-character string (longer than the 1024-character cap). -/
def longText : String := String.mk (List.replicate 2000 'a')

/-- A string of length exactly 1024. -/
def s1024 : String := String.mk (List.replicate 1024 'a')

/-- A UI graph holding a `positive` PrimitiveNode whose widget value is the
2000-character string. -/
def wfLong : List (String × PyVal) :=
  [("nodes", .list [.dict [("type", .str "PrimitiveNode"),
    ("title", .str "positive"), ("widgets_values", .list [.str longText])]])]

/-- A UI graph holding a `positive` PrimitiveNode whose single widget value
is the empty string. -/
def wfEmptyWidget : List (String × PyVal) :=
  [("nodes", .list [.dict [("type", .str "PrimitiveNode"),
    ("title", .str "positive"), ("widgets_values", .list [.str ""])]])]

/-- A UI graph holding a `positive` PrimitiveNode with widget value
`"cats"` (the spec's overlay example). -/
def wfCats : List (String × PyVal) :=
  [("nodes", .list [.dict [("type", .str "PrimitiveNode"),
    ("title", .str "positive"), ("widgets_values", .list [.str "cats"])]])]

/-- A graph whose only node is a dict without a `class_type` key. -/
def noTypeGraph : List (String × PyVal) := [("n1", .dict [("foo", .int 1)])]

/-- An `EmptyLatentImage` node with `width` present but `height` missing
(its formatting rule needs both). -/
def partialLatentGraph : List (String × PyVal) :=
  [("5", .dict [("inputs", .dict [("width", .int 512)]),
    ("class_type", .str "EmptyLatentImage")])]

/-- A graph where a target `KSampler` links to a node stored as a bare
`int` — `'class_type' not in 7` raises `TypeError` in the source. -/
def intNodeGraph : List (String × PyVal) := [
  ("3", .dict [("inputs", .dict [("model", .list [.str "4", .int 0])]),
    ("class_type", .str "KSampler")]),
  ("4", .int 7)]

/-- The raw metadata text of `intNodeGraph`, for exercising the parsing
front door end to end. -/
def intNodeJson : String :=
  "\x7b\"3\": \x7b\"inputs\": \x7b\"model\": [\"4\", 0]\x7d, \"class_type\": \"KSampler\"\x7d, \"4\": 7\x7d"

/-- A `prompt` metadata string whose JSON nests 2001 levels deep — far
beyond the recursion limit, so `json.loads` raises `RecursionError`. -/
def deepPromptJson : String :=
  "\x7b\"k\":" ++ String.mk (List.replicate 2000 '[') ++
    String.mk (List.replicate 2000 ']') ++ "\x7d"

/-- A UI graph holding a `negative` PrimitiveNode with widget value
`"ugly"`. -/
def wfNegCats : List (String × PyVal) :=
  [("nodes", .list [.dict [("type", .str "PrimitiveNode"),
    ("title", .str "negative"), ("widgets_values", .list [.str "ugly"])]])]

/-- A UI graph whose node list holds a bare `int` — `node.get('type')`
raises `AttributeError` in the overlay loop. -/
def wfBadNode : List (String × PyVal) := [("nodes", .list [.int 5])]

/-- Node ids for the bypass-chain family: `chainId k` is the string of
`k + 1` copies of `n` (injective in `k` by length). -/
def chainId (k : Nat) : String := String.mk (List.replicate (k + 1) 'n')

/-- A `VAEDecode` bypass node whose `samples` input holds `next` (the
`VAEDecode` propagation rule forwards slot 0 to `samples`). -/
def chainNode (next : PyVal) : PyVal :=
  .dict [("inputs", .dict [("samples", next)]), ("class_type", .str "VAEDecode")]

/-- `chainGraph start n v`: bypass nodes `chainId start … chainId
(start+n)`, each linking its `samples` input to the next, the last holding
the literal `v`. -/
def chainGraph : Nat → Nat → PyVal → List (String × PyVal)
  | start, 0, v => [(chainId start, chainNode v)]
  | start, n + 1, v =>
    (chainId start, chainNode (.list [.str (chainId (start + 1)), .int 0])) ::
      chainGraph (start + 1) n v

/-- Whether a UI-node dict is a PrimitiveNode titled `t` whose first widget
value has truthy (non-empty) string form — exactly the condition under
which the overlay loop (lines 445-455) force-sets the title's display
field. -/
def overridesTitle (t : String) (nd : List (String × PyVal)) : Bool :=
  pyEq ((findVal "type" nd).getD .none) (.str "PrimitiveNode") &&
  (match findVal "widgets_values" nd with
   | some (.list (w :: _)) => pyStr w != ""
   | _ => false) &&
  pyEq ((findVal "title" nd).getD .none) (.str t)

/-! ### Helper lemmas -/

@[simp] theorem ok_bind (a : α) (f : α → Ex β) : (Ex.ok a >>= f) = f a := rfl

@[simp] theorem exn_bind (e : PyErr) (f : α → Ex β) : (Ex.exn e >>= f) = Ex.exn e := rfl

@[simp] theorem fuelOut_bind (f : α → Ex β) : ((Ex.fuelOut : Ex α) >>= f) = Ex.fuelOut := rfl

@[simp] theorem liftE_ok (a : α) : liftE (Except.ok a : Except PyErr α) = Ex.ok a := rfl

@[simp] theorem liftE_error (e : PyErr) :
    liftE (Except.error e : Except PyErr α) = Ex.exn e := rfl

@[simp] theorem findVal_setVal_same (k : String) (v : α) (d : List (String × α)) :
    findVal k (setVal k v d) = some v := by
  induction d with
  | nil => simp [setVal, findVal]
  | cons hd tl ih =>
    by_cases h : hd.1 = k
    · simp [setVal, findVal, h]
    · simp [setVal, findVal, h, ih]

theorem findVal_setVal_other (k k' : String) (v : α) (d : List (String × α))
    (h : k' ≠ k) : findVal k (setVal k' v d) = findVal k d := by
  induction d with
  | nil => simp [setVal, findVal, h]
  | cons hd tl ih =>
    by_cases h2 : hd.1 = k'
    · simp [setVal, findVal, h2, h]
    · simp [setVal, findVal, h2, ih]

theorem truncateVal_of_le (s : String) (h : s.length ≤ 1023) : truncateVal s = s := by
  have hn : ¬ (s.length > 1023) := by omega
  simp only [truncateVal, if_neg hn]

theorem truncateVal_of_gt (s : String) (h : 1023 < s.length) :
    truncateVal s = String.mk (s.data.take 1020) ++ "..." := by
  have hp : s.length > 1023 := by omega
  simp only [truncateVal, if_pos hp]

theorem truncateVal_length_of_gt (s : String) (h : 1023 < s.length) :
    (truncateVal s).length = 1023 := by
  have hd : s.data.length = s.length := rfl
  have h3 : ("..." : String).length = 3 := rfl
  rw [truncateVal_of_gt s h, String.length_append, String.length_mk, List.length_take, h3]
  omega

theorem truncateVal_length_le (s : String) : (truncateVal s).length ≤ 1023 := by
  by_cases h : 1023 < s.length
  · rw [truncateVal_length_of_gt s h]
  · rw [truncateVal_of_le s (by omega)]; omega

@[simp] theorem exceptP_ok_bind (a : α) (f : α → Except PyErr β) :
    (Except.ok a >>= f : Except PyErr β) = f a := rfl

theorem s1024_length : s1024.length = 1024 := by
  rw [show s1024 = String.mk (List.replicate 1024 'a') from rfl, String.length_mk,
    List.length_replicate]

/-! ### The claims -/

/-- Claim C1: for the spec's end-to-end example graph (node 3 `KSampler`
with the literal and link inputs of the example, node 4
`CheckpointLoaderSimple`, node 5 `EmptyLatentImage` 1024×1024, nodes 6/7
`CLIPTextEncode`), extraction returns a Result containing
`Model = "sd_xl_base_1.0.safetensors"`, the positive and negative prompt
texts, `Size = "1024 x 1024"` and `Seed = "89898989"`. -/
theorem c1_end_to_end_example :
    findVal "Model" (comfyui_get_data 100 (some exampleGraph) Option.none) =
      some "sd_xl_base_1.0.safetensors" ∧
    findVal "Prompt" (comfyui_get_data 100 (some exampleGraph) Option.none) =
      some "beautiful landscape painting, epic composition" ∧
    findVal "Negative Prompt" (comfyui_get_data 100 (some exampleGraph) Option.none) =
      some "ugly, deformed" ∧
    findVal "Size" (comfyui_get_data 100 (some exampleGraph) Option.none) =
      some "1024 x 1024" ∧
    findVal "Seed" (comfyui_get_data 100 (some exampleGraph) Option.none) =
      some "89898989" :=
  ⟨rfl, rfl, rfl, rfl, rfl⟩

/-- Claim C7 counterexample: a fixed-point format spec applied to a string
value makes `str.format` raise `ValueError`, which `custom_operation`
(catching only `KeyError`, line 257) does not catch: the call raises
instead of returning the unformatted template. -/
theorem c7_value_error_raises :
    custom_operation (.format ["x"] "{x:.2f}") (.dict [("x", .str "hi")]) =
      .error (.valueError "Unknown format code f for object of type str") ∧
    ∀ s, custom_operation (.format ["x"] "{x:.2f}") (.dict [("x", .str "hi")]) ≠
      .ok s := by
  refine ⟨rfl, fun s h => ?_⟩
  rw [show custom_operation (.format ["x"] "{x:.2f}") (.dict [("x", .str "hi")]) =
    .error (.valueError "Unknown format code f for object of type str") from rfl] at h
  exact Except.noConfusion h

/-- Claim C7 amended: on a missing-key substitution error (`KeyError`) the
template-format operation returns the unformatted template string; other
substitution errors (such as a numeric format spec applied to a
non-numeric value) are raised to the caller rather than swallowed. -/
theorem c7_keyerror_returns_template (keys : List String) (tmpl : String)
    (obj : List (String × PyVal)) (args : List (String × PyVal)) (k : String)
    (hargs : buildFormatArgs (.dict obj) keys [] = .ok args)
    (hfmt : pyFormat tmpl args = .error (.keyError k)) :
    custom_operation (.format keys tmpl) (.dict obj) = .ok (.str tmpl) := by
  simp only [custom_operation, hargs, exceptP_ok_bind, hfmt]

/-- Witness for C7 amended: template `{b}` with `keys_to_use = ["a"]`
misses key `b` and the unformatted template is returned. -/
theorem c7_keyerror_witness :
    buildFormatArgs (.dict [("a", .int 1)]) ["a"] [] = .ok [("a", .int 1)] ∧
    pyFormat "{b}" [("a", .int 1)] = .error (.keyError "b") ∧
    custom_operation (.format ["a"] "{b}") (.dict [("a", .int 1)]) = .ok (.str "{b}") :=
  ⟨rfl, rfl, c7_keyerror_returns_template ["a"] "{b}" [("a", .int 1)]
    [("a", .int 1)] "b" rfl rfl⟩

/-- Claim C9 counterexample: a formatted value of length exactly 1024 is
already truncated (the source's threshold is `> 1023`, i.e. 1024 and
longer, not `> 1024` as claimed): it is stored with length 1023, not
unchanged. -/
theorem c9_boundary_1024_truncated :
    s1024.length = 1024 ∧ truncateVal s1024 ≠ s1024 ∧
    (truncateVal s1024).length = 1023 := by
  have hlen := s1024_length
  refine ⟨hlen, fun h => ?_, truncateVal_length_of_gt _ (by omega)⟩
  have := congrArg String.length h
  rw [truncateVal_length_of_gt _ (by omega), hlen] at this
  omega

/-- Claim C9 amended: the truncation threshold is 1023 characters, not
1024 — a value whose length is at least 1024 is stored as its first 1020
characters plus the 3-character `"..."` marker (total 1023); values of
length at most 1023 are stored unchanged. -/
theorem c9_truncation_threshold_1023 (s : String) :
    (s.length ≤ 1023 → truncateVal s = s) ∧
    (1023 < s.length →
      truncateVal s = String.mk (s.data.take 1020) ++ "..." ∧
      (truncateVal s).length = 1023) :=
  ⟨truncateVal_of_le s,
   fun h => ⟨truncateVal_of_gt s h, truncateVal_length_of_gt s h⟩⟩

/-- Witness for C9 amended: a short value is stored unchanged; the
1024-character value is stored as 1020 characters plus the marker. -/
theorem c9_truncation_witness :
    truncateVal "ab" = "ab" ∧
    truncateVal s1024 = String.mk (s1024.data.take 1020) ++ "..." :=
  ⟨(c9_truncation_threshold_1023 "ab").1 (by decide),
   ((c9_truncation_threshold_1023 s1024).2 (by rw [s1024_length]; omega)).1⟩

/-- Claim C10: `resolve_bypasses` treats a value as a link exactly when it
is a two-element list whose first element is a `str` and whose second is
an `int` (Python `bool` being a subclass of `int`, a `bool` second element
also qualifies); every other non-`None` value — including `[4, 0]` with an
integer first element, or longer lists — is returned unchanged as a
literal. -/
theorem c10_link_shape_iff :
    (∀ v : PyVal, is_comfy_link v = true ↔
      ((∃ s n, v = .list [.str s, .int n]) ∨ (∃ s b, v = .list [.str s, .bool b]))) ∧
    (∀ (v : PyVal) (g : List (String × PyVal)) (fuel : Nat),
      isNone v = false → is_comfy_link v = false →
      resolve_bypasses g (fuel + 1) v = .ok v) := by
  constructor
  · intro v
    constructor
    · intro h
      match v, h with
      | .list [.str s, .int n], _ => exact Or.inl ⟨s, n, rfl⟩
      | .list [.str s, .bool b], _ => exact Or.inr ⟨s, b, rfl⟩
    · rintro (⟨s, n, rfl⟩ | ⟨s, b, rfl⟩) <;> rfl
  · intro v g fuel h1 h2
    simp [resolve_bypasses, h1, h2]

/-- Witness for C10: `[4, 0]` (integer node id) is not a link and is
returned unchanged. -/
theorem c10_link_shape_witness :
    isNone (.list [.int 4, .int 0]) = false ∧
    is_comfy_link (.list [.int 4, .int 0]) = false ∧
    resolve_bypasses [] 4 (.list [.int 4, .int 0]) = .ok (.list [.int 4, .int 0]) :=
  ⟨rfl, rfl, c10_link_shape_iff.2 (.list [.int 4, .int 0]) [] 3 rfl rfl⟩

/-- Claim C5: a link whose node id is absent from the executable graph, or
whose referenced node is a (possibly empty) dict carrying no type name,
makes the Link Resolver return — without raising and without returning
`None` — an error-sentinel string of the form `"Error: … <id>"` embedding
the offending node id. -/
theorem c5_dangling_link_error_sentinel (g : List (String × PyVal)) (id : String)
    (slot : Int) (fuel : Nat)
    (h : findVal id g = Option.none ∨
      ∃ d, findVal id g = some (.dict d) ∧ hasKey "class_type" d = false) :
    ∃ s, resolve_bypasses g (fuel + 1) (.list [.str id, .int slot]) = .ok (.str s) ∧
      (s = "Error: Missing node " ++ id ∨ s = "Error: Invalid node " ++ id) := by
  have hstep : resolve_bypasses g (fuel + 1) (.list [.str id, .int slot]) =
      resolveLink (resolve_bypasses g fuel) g id slot := by
    simp [resolve_bypasses, isNone, is_comfy_link]
  rcases h with hmiss | ⟨d, hfind, hct⟩
  · have hk : hasKey id g = false := by simp [hasKey, hmiss]
    exact ⟨_, by rw [hstep]; simp [resolveLink, hk], Or.inl rfl⟩
  · have hk : hasKey id g = true := by simp [hasKey, hfind]
    refine ⟨_, ?_, Or.inr rfl⟩
    rw [hstep]
    by_cases hd : d = []
    · subst hd
      simp [resolveLink, hk, hfind, pyTruthy]
    · simp [resolveLink, hk, hfind, pyTruthy, List.isEmpty_eq_false.mpr hd,
        pyContains, liftE, hct]

/-- Witness for C5: a link to the absent node `n0` of `noTypeGraph`
resolves to the missing-node sentinel. -/
theorem c5_dangling_link_witness :
    findVal "n0" noTypeGraph = Option.none ∧
    ∃ s, resolve_bypasses noTypeGraph 5 (.list [.str "n0", .int 0]) = .ok (.str s) ∧
      (s = "Error: Missing node " ++ "n0" ∨ s = "Error: Invalid node " ++ "n0") :=
  ⟨rfl, c5_dangling_link_error_sentinel noTypeGraph "n0" 0 4 (Or.inl rfl)⟩

theorem str_isEmpty_false {s : String} (h : s ≠ "") : s.isEmpty = false := by
  cases hb : s.isEmpty
  · rfl
  · exact absurd ((String.isEmpty_iff s).mp hb) h

theorem bracket_overflow : ∀ (depth fuel k : Nat) (rest : List Char),
    depth + 1 ≤ k → 2 * depth + 1 ≤ fuel →
    jsonCore fuel depth .value (List.replicate k '[' ++ rest) =
      .error .recursionError := by
  intro depth
  induction depth with
  | zero =>
    intro fuel k rest hk hf
    obtain ⟨f, rfl⟩ : ∃ f, fuel = f + 1 := ⟨fuel - 1, by omega⟩
    obtain ⟨k2, rfl⟩ : ∃ k2, k = k2 + 1 := ⟨k - 1, by omega⟩
    rw [List.replicate_succ]
    simp [jsonCore, isJsonWs]
  | succ d ih =>
    intro fuel k rest hk hf
    obtain ⟨f, rfl⟩ : ∃ f, fuel = f + 1 := ⟨fuel - 1, by omega⟩
    obtain ⟨f2, rfl⟩ : ∃ f2, f = f2 + 1 := ⟨f - 1, by omega⟩
    obtain ⟨k2, rfl⟩ : ∃ k2, k = k2 + 1 := ⟨k - 1, by omega⟩
    obtain ⟨k3, rfl⟩ : ∃ k3, k2 = k3 + 1 := ⟨k2 - 1, by omega⟩
    rw [List.replicate_succ]
    have hrec := ih f2 (k3 + 1) rest (by omega) (by omega)
    simp only [List.replicate_succ] at hrec
    have ha : (('[' : Char) = '"') = False := eq_false (by decide)
    have hb : (('[' : Char) = lbrace) = False := eq_false (by decide)
    have hc : (('[' : Char) = ']') = False := eq_false (by decide)
    simp [jsonCore, isJsonWs, List.replicate_succ, ha, hb, hc]
    split
    · rename_i e heq
      have h2 := hrec.symm.trans heq
      injection h2 with h3
      rw [h3]
    · rename_i p heq
      exact absurd (hrec.symm.trans heq) (by simp)

theorem deepPromptJson_data :
    deepPromptJson.data = '\x7b' :: '"' :: 'k' :: '"' :: ':' ::
      (List.replicate 2000 '[' ++ (List.replicate 2000 ']' ++ ['\x7d'])) := by
  rw [deepPromptJson, String.data_append, String.data_append, String.data_append,
    List.append_assoc, List.append_assoc]
  rfl

theorem deepPromptJson_len : deepPromptJson.data.length = 4006 := by
  rw [deepPromptJson_data, List.length_cons, List.length_cons, List.length_cons,
    List.length_cons, List.length_cons, List.length_append, List.length_replicate,
    List.length_append, List.length_replicate, List.length_cons, List.length_nil]

theorem deep_core (fuel : Nat) (h : 2001 ≤ fuel) :
    jsonCore fuel 1000 .value deepPromptJson.data = .error .recursionError := by
  obtain ⟨f, rfl⟩ : ∃ f, fuel = f + 1 := ⟨fuel - 1, by omega⟩
  obtain ⟨f2, rfl⟩ : ∃ f2, f = f2 + 1 := ⟨f - 1, by omega⟩
  rw [deepPromptJson_data]
  have hb := bracket_overflow 999 f2 2000 (List.replicate 2000 ']' ++ ['\x7d'])
    (by omega) (by omega)
  generalize hL : List.replicate 2000 '[' ++ (List.replicate 2000 ']' ++ ['\x7d']) = L
    at hb ⊢
  have c1 : (('\x7b' : Char) = '"') = False := eq_false (by decide)
  have c2 : (('\x7b' : Char) = lbrace) = True := eq_true (by decide)
  have c3 : (('"' : Char) = rbrace) = False := eq_false (by decide)
  have c4 : (('k' : Char) = '"') = False := eq_false (by decide)
  have c5 : (('k' : Char) = '\\') = False := eq_false (by decide)
  simp [jsonCore, jsonStringBody, isJsonWs, c1, c2, c3, c4, c5, hb]

theorem deep_loads : json_loads deepPromptJson = .error .recursionError := by
  unfold json_loads
  rw [show json_recursion_limit = 1000 from rfl,
    deep_core (2 * deepPromptJson.data.length + 4) (by rw [deepPromptJson_len]; omega)]

theorem deepPromptJson_ne : deepPromptJson ≠ "" := by
  intro h
  have h2 := congrArg String.data h
  rw [deepPromptJson_data] at h2
  exact List.noConfusion h2

theorem parse_deep : parse_prompt_graph (.str deepPromptJson) = .error .recursionError := by
  have hie := str_isEmpty_false deepPromptJson_ne
  have hsw : stripStartsWithBrace deepPromptJson = true := by
    have c2 : (('\x7b' : Char) = lbrace) = True := eq_true (by decide)
    rw [stripStartsWithBrace, deepPromptJson_data]
    generalize List.replicate 2000 '[' ++ (List.replicate 2000 ']' ++ ['\x7d']) = L
    simp [isJsonWs, c2]
  simp [parse_prompt_graph, pyTruthy, hie, hsw, deep_loads]

theorem intNodeJson_parses : parse_prompt_graph (.str intNodeJson) = .ok intNodeGraph := rfl

/-- Claim C8 counterexample: the parsing phase (lines 368-393) runs before
the top-level `try` of line 395 and catches only `json.JSONDecodeError`,
so the `RecursionError` that `json.loads` raises on a deeply nested
`prompt` string escapes to the caller instead of being converted to an
empty Result. -/
theorem c8_parse_recursion_escapes :
    comfyui_get_data_meta 10 [("prompt", .str deepPromptJson)] = .exn .recursionError ∧
    ∀ r, comfyui_get_data_meta 10 [("prompt", .str deepPromptJson)] ≠ .ok r := by
  have h : comfyui_get_data_meta 10 [("prompt", .str deepPromptJson)] =
      .exn .recursionError := by
    simp [comfyui_get_data_meta, findVal, parse_deep]
  refine ⟨h, fun r hr => ?_⟩
  rw [h] at hr
  exact Ex.noConfusion hr

/-- Claim C8 amended: every exception raised inside the guarded body —
target-node scanning, link resolution, field formatting, the overlay, and
the `RecursionError` from cyclic graphs (`Ex.fuelOut`) — is caught at the
top level and converted to the empty Result; only the parsing phase,
which runs before the `try` and catches just `JSONDecodeError`, can let
an exception (such as `RecursionError` from deeply nested JSON) propagate
to the caller. -/
theorem c8_body_exceptions_become_empty (fuel : Nat)
    (image_info : List (String × PyVal)) (pg : List (String × PyVal)) (wg : PyVal)
    (hp : parse_prompt_graph ((findVal "prompt" image_info).getD .none) = .ok pg)
    (hw : parse_workflow_graph ((findVal "workflow" image_info).getD .none) = .ok wg)
    (h : (∃ e, comfyBody fuel pg wg = .exn e) ∨ comfyBody fuel pg wg = .fuelOut) :
    comfyui_get_data_meta fuel image_info = .ok [] := by
  unfold comfyui_get_data_meta
  rw [hp, hw]
  by_cases hg : pg.isEmpty && !pyTruthy wg
  · simp [hg]
  · rcases h with ⟨e, he⟩ | hf
    · simp [hg, he]
    · simp [hg, hf]

/-- Witness for C8 amended: real metadata text whose graph links a target
node to a bare-`int` node — the body raises `TypeError` inside the `try`
and the extraction returns the empty Result. -/
theorem c8_body_exceptions_witness :
    parse_prompt_graph (.str intNodeJson) = .ok intNodeGraph ∧
    comfyBody 100 intNodeGraph (.dict []) =
      .exn (.typeError "argument of type is not iterable") ∧
    comfyui_get_data_meta 100 [("prompt", .str intNodeJson)] = .ok [] :=
  ⟨intNodeJson_parses, rfl,
   c8_body_exceptions_become_empty 100 [("prompt", .str intNodeJson)] intNodeGraph
     (.dict []) intNodeJson_parses rfl (Or.inl ⟨_, rfl⟩)⟩

theorem chainId_length (k : Nat) : (chainId k).length = k + 1 := by
  rw [chainId, String.length_mk, List.length_replicate]

theorem chainId_inj {a b : Nat} (h : chainId a = chainId b) : a = b := by
  have ha := chainId_length a
  rw [h, chainId_length b] at ha
  omega

theorem chain_lookup : ∀ (n start j : Nat) (v : PyVal), start ≤ j → j ≤ start + n →
    findVal (chainId j) (chainGraph start n v) =
      some (chainNode
        (if j < start + n then .list [.str (chainId (j + 1)), .int 0] else v)) := by
  intro n
  induction n with
  | zero =>
    intro start j v h1 h2
    have hj : j = start := by omega
    subst hj
    rw [chainGraph, if_neg (by omega : ¬ j < j + 0)]
    simp [findVal]
  | succ n ih =>
    intro start j v h1 h2
    by_cases hj : j = start
    · subst hj
      rw [chainGraph, if_pos (by omega : j < j + (n + 1))]
      simp [findVal]
    · have hne : chainId start ≠ chainId j := fun hc => hj (chainId_inj hc).symm
      rw [chainGraph]
      show findVal (chainId j) (_ :: chainGraph (start + 1) n v) = _
      rw [findVal, if_neg hne, ih (start + 1) j v (by omega) (by omega),
        show (start + 1) + n = start + (n + 1) from by omega]

theorem chain_step (N j : Nat) (v : PyVal) (hle : j ≤ N) (fuel : Nat) :
    resolve_bypasses (chainGraph 0 N v) (fuel + 1) (.list [.str (chainId j), .int 0]) =
      resolve_bypasses (chainGraph 0 N v) fuel
        (if j < N then .list [.str (chainId (j + 1)), .int 0] else v) := by
  have hlook := chain_lookup N 0 j v (Nat.zero_le j) (by omega)
  rw [Nat.zero_add] at hlook
  have hk : hasKey (chainId j) (chainGraph 0 N v) = true := by
    rw [hasKey, hlook]; rfl
  have hrc : resolve_class_type (.str "VAEDecode") PropagationRule.class_type
      comfy_nodes_propagation_data =
      some ⟨.str "VAEDecode", [(0, MappingValue.str "samples")]⟩ := rfl
  show resolveLink (resolve_bypasses (chainGraph 0 N v) fuel) (chainGraph 0 N v)
      (chainId j) 0 = _
  simp only [resolveLink, hk, hlook]
  simp [chainNode, pyTruthy, pyContains, hasKey, findVal, pySubscript, pyGet, liftE,
    hrc, findSlot]

theorem chain_resolve (v : PyVal) (hv1 : is_comfy_link v = false)
    (hv2 : isNone v = false) (N : Nat) :
    ∀ (d j : Nat), j + d = N →
      resolve_bypasses (chainGraph 0 N v) (d + 2) (.list [.str (chainId j), .int 0]) =
        .ok v := by
  intro d
  induction d with
  | zero =>
    intro j hj
    rw [show (0 + 2 : Nat) = 1 + 1 from rfl, chain_step N j v (by omega) 1,
      if_neg (by omega)]
    show resolve_bypasses _ (0 + 1) v = _
    simp [resolve_bypasses, hv1, hv2]
  | succ d ih =>
    intro j hj
    rw [show (d + 1 + 2 : Nat) = (d + 2) + 1 from rfl,
      chain_step N j v (by omega) (d + 2), if_pos (by omega)]
    exact ih (j + 1) (by omega)

/-- Claim C2: a bypass chain of any depth `N ≥ 0` — each node's matching
propagation rule a simple input-name reference forwarding to the next
link, ending at a node whose referenced input holds a literal — resolves
to that literal (with fuel `N + 2`, one step per hop plus the final
literal step). -/
theorem c2_bypass_chain_resolves_literal (N : Nat) (v : PyVal)
    (hv1 : is_comfy_link v = false) (hv2 : isNone v = false) :
    resolve_bypasses (chainGraph 0 N v) (N + 2) (.list [.str (chainId 0), .int 0]) =
      .ok v :=
  chain_resolve v hv1 hv2 N N 0 (by omega)

/-- Witness for C2: a depth-2 chain of `VAEDecode` bypass nodes resolves
to the literal string held at its end. -/
theorem c2_bypass_chain_witness :
    is_comfy_link (.str "lit") = false ∧ isNone (.str "lit") = false ∧
    resolve_bypasses (chainGraph 0 2 (.str "lit")) 4 (.list [.str (chainId 0), .int 0]) =
      .ok (.str "lit") :=
  ⟨rfl, rfl, c2_bypass_chain_resolves_literal 2 (.str "lit") rfl rfl⟩

theorem longText_length : longText.length = 2000 := by
  rw [show longText = String.mk (List.replicate 2000 'a') from rfl, String.length_mk,
    List.length_replicate]

theorem extractedParams_val_le (results : List (String × List String)) :
    ∀ p ∈ extractedParams results, p.2.length ≤ 1023 := by
  intro p hp
  simp only [extractedParams, List.mem_flatMap, List.mem_map] at hp
  obtain ⟨q, _, value, _, hpe⟩ := hp
  rw [← hpe]
  exact truncateVal_length_le value

/-- Claim C3 counterexample: the Prompt entry written by the UI-graph
overlay step is not truncated — a `positive` PrimitiveNode with a
2000-character widget value puts the full 2000-character string into the
Result, violating the claimed 1024-character cap. -/
theorem c3_overlay_value_exceeds_cap :
    findVal "Prompt" (comfyui_get_data 10 Option.none (some wfLong)) = some longText ∧
    longText.length = 2000 ∧ 1024 < longText.length :=
  ⟨rfl, longText_length, by rw [longText_length]; omega⟩

/-- Claim C3 amended: the length cap holds for every entry produced by the
executable-graph aggregation step (each such value is at most 1023
characters, the source's actual cap); values written by the UI-graph
overlay step are not truncated and may exceed it. -/
theorem c3_part1_values_capped (fuel : Nat) (pg : List (String × PyVal))
    (out : List (String × String)) (h : comfyPart1 fuel pg = .ok out) :
    ∀ p ∈ out, p.2.length ≤ 1023 := by
  unfold comfyPart1 at h
  cases h1 : targetsResolve fuel pg (collectTargets pg) with
  | ok resolved =>
    rw [h1] at h
    simp only [ok_bind] at h
    cases h2 : nodesAccum resolved
        (format_of_comfy_fields_to_types.map (fun p => (p.1, ([] : List String)))) with
    | ok results =>
      rw [h2] at h
      simp only [ok_bind] at h
      cases h
      exact extractedParams_val_le results
    | exn e => rw [h2] at h; simp only [exn_bind] at h; exact Ex.noConfusion h
    | fuelOut => rw [h2] at h; simp only [fuelOut_bind] at h; exact Ex.noConfusion h
  | exn e => rw [h1] at h; simp only [exn_bind] at h; exact Ex.noConfusion h
  | fuelOut => rw [h1] at h; simp only [fuelOut_bind] at h; exact Ex.noConfusion h

/-- Witness for C3 amended: the example graph's aggregation output, whose
`Size` entry is within the cap. -/
theorem c3_part1_values_capped_witness :
    comfyPart1 10 exampleGraph = .ok
      [("Model", "sd_xl_base_1.0.safetensors"),
       ("Prompt", "beautiful landscape painting, epic composition"),
       ("Negative Prompt", "ugly, deformed"),
       ("Size", "1024 x 1024"),
       ("Seed", "89898989"),
       ("Steps", "20"),
       ("CFG Scale", "7.0"),
       ("Sampler", "dpmpp_2m"),
       ("Scheduler", "karras"),
       ("Denoise", "1.00")] ∧
    (("Size", "1024 x 1024") : String × String).2.length ≤ 1023 := by
  have h : comfyPart1 10 exampleGraph = .ok
      [("Model", "sd_xl_base_1.0.safetensors"),
       ("Prompt", "beautiful landscape painting, epic composition"),
       ("Negative Prompt", "ugly, deformed"),
       ("Size", "1024 x 1024"),
       ("Seed", "89898989"),
       ("Steps", "20"),
       ("CFG Scale", "7.0"),
       ("Sampler", "dpmpp_2m"),
       ("Scheduler", "karras"),
       ("Denoise", "1.00")] := by decide
  exact ⟨h, c3_part1_values_capped 10 exampleGraph _ h ("Size", "1024 x 1024")
    (by simp)⟩

theorem resolveFormatKeys_fail (resolver : PyVal → Ex PyVal)
    (nd ins : List (String × PyVal))
    (hIns : (findVal "inputs" nd).getD (.dict []) = .dict ins) :
    ∀ (ks : List String) (acc : List (String × PyVal)),
      (∃ k ∈ ks, findVal k ins = Option.none ∨
        ∃ kv, findVal k ins = some kv ∧ resolver kv = .ok .none) →
      (∀ k ∈ ks, ∀ kv, findVal k ins = some kv → ∃ rv, resolver kv = .ok rv) →
      resolveFormatKeys resolver (.dict nd) ks acc = .ok Option.none := by
  intro ks
  induction ks with
  | nil =>
    intro acc hfail _
    obtain ⟨k, hk, _⟩ := hfail
    exact absurd hk (List.not_mem_nil k)
  | cons k rest ih =>
    intro acc hfail hok
    have hget : pyGet (.dict nd) "inputs" (.dict []) = .ok (.dict ins) := by
      simp [pyGet, hIns]
    cases hkv : findVal k ins with
    | none =>
      have hmem : hasKey k ins = false := by simp [hasKey, hkv]
      simp [resolveFormatKeys, hget, liftE, pyContains, hmem,
        COMFY_METADATA_PROPAGATE_NONE]
    | some kv =>
      have hmem : hasKey k ins = true := by simp [hasKey, hkv]
      cases hni : findVal "inputs" nd with
      | none => rw [hni] at hIns; cases hIns; simp [findVal] at hkv
      | some x =>
        rw [hni] at hIns
        simp only [Option.getD_some] at hIns
        subst hIns
        obtain ⟨rv, hrv⟩ := hok k (List.mem_cons_self k rest) kv hkv
        cases hn : isNone rv with
        | true =>
          simp [resolveFormatKeys, hget, liftE, pyContains, hmem, pySubscript, hni,
            hkv, hrv, COMFY_METADATA_PROPAGATE_NONE, hn]
        | false =>
          have hstep : resolveFormatKeys resolver (.dict nd) (k :: rest) acc =
              resolveFormatKeys resolver (.dict nd) rest (setVal k rv acc) := by
            simp [resolveFormatKeys, hget, liftE, pyContains, hmem, pySubscript, hni,
              hkv, hrv, COMFY_METADATA_PROPAGATE_NONE, hn]
          rw [hstep]
          apply ih
          · obtain ⟨k0, hk0, hf0⟩ := hfail
            rcases List.mem_cons.mp hk0 with hk0e | hk0r
            · subst hk0e
              rcases hf0 with hf0 | ⟨kv0, hkv0, hr0⟩
              · rw [hkv] at hf0; exact absurd hf0 (by simp)
              · rw [hkv] at hkv0
                injection hkv0 with he
                subst he
                rw [hrv] at hr0
                injection hr0 with he2
                rw [he2] at hn
                simp [isNone] at hn
            · exact ⟨k0, hk0r, hf0⟩
          · intro k1 hk1 kv1 hkv1
            exact hok k1 (List.mem_cons_of_mem k hk1) kv1 hkv1

/-- Claim C6: under the propagate-none policy, when the resolver reaches a
node whose slot rule is a formatting operation, if any required field is
absent from the node's inputs or resolves to `None` — and every present
field's resolution returns normally — then the entire formatting result is
`None`, independently of which field triggers the abort. -/
theorem c6_format_propagate_none (g : List (String × PyVal)) (id : String) (slot : Int)
    (fuel : Nat) (nd ins : List (String × PyVal)) (ct : PyVal) (rule : PropagationRule)
    (ks : List String) (tmpl : String)
    (hnode : findVal id g = some (.dict nd))
    (hct : findVal "class_type" nd = some ct)
    (hrule : resolve_class_type ct PropagationRule.class_type
      comfy_nodes_propagation_data = some rule)
    (hslot : findSlot slot rule.mapping = some (.op ks tmpl))
    (hIns : (findVal "inputs" nd).getD (.dict []) = .dict ins)
    (hfail : ∃ k ∈ ks, findVal k ins = Option.none ∨
      ∃ kv, findVal k ins = some kv ∧ resolve_bypasses g fuel kv = .ok .none)
    (hok : ∀ k ∈ ks, ∀ kv, findVal k ins = some kv →
      ∃ rv, resolve_bypasses g fuel kv = .ok rv) :
    resolve_bypasses g (fuel + 1) (.list [.str id, .int slot]) = .ok .none := by
  have hstep : resolve_bypasses g (fuel + 1) (.list [.str id, .int slot]) =
      resolveLink (resolve_bypasses g fuel) g id slot := by
    simp [resolve_bypasses, isNone, is_comfy_link]
  rw [hstep]
  have hk : hasKey id g = true := by simp [hasKey, hnode]
  have hndne : ¬ nd.isEmpty = true := by
    intro h
    rw [List.isEmpty_iff.mp h] at hct
    simp [findVal] at hct
  have hctk : hasKey "class_type" nd = true := by simp [hasKey, hct]
  have hkne : ks.isEmpty = false := by
    obtain ⟨k, hk0, _⟩ := hfail
    cases ks with
    | nil => exact absurd hk0 (List.not_mem_nil k)
    | cons a l => rfl
  simp [resolveLink, hk, hnode, pyTruthy, hndne, liftE, pyContains, hctk,
    pySubscript, hct, hrule, hslot, hkne,
    resolveFormatKeys_fail (resolve_bypasses g fuel) nd ins hIns ks [] hfail hok]

/-- Witness for C6: an `EmptyLatentImage` node with `width` present but
`height` missing resolves to `None`. -/
theorem c6_format_propagate_none_witness :
    findVal "height" [("width", PyVal.int 512)] = Option.none ∧
    resolve_bypasses partialLatentGraph 4 (.list [.str "5", .int 0]) = .ok .none := by
  refine ⟨rfl, c6_format_propagate_none partialLatentGraph "5" 0 3
    [("inputs", .dict [("width", .int 512)]), ("class_type", .str "EmptyLatentImage")]
    [("width", .int 512)] (.str "EmptyLatentImage")
    ⟨.str "EmptyLatentImage", [(0, .op ["width", "height"] "{width} x {height}")]⟩
    ["width", "height"] "{width} x {height}"
    rfl rfl rfl rfl rfl
    ⟨"height", by simp, Or.inl rfl⟩ ?_⟩
  intro k hk kv hkv
  rcases List.mem_cons.mp hk with h | h
  · subst h
    rw [show findVal "width" [("width", PyVal.int 512)] = some (.int 512) from rfl] at hkv
    injection hkv with he
    subst he
    exact ⟨.int 512, rfl⟩
  · rcases List.mem_cons.mp h with h2 | h2
    · subst h2
      simp [findVal] at hkv
    · exact absurd h2 (List.not_mem_nil k)

@[simp] theorem pure_ok (a : α) : (pure a : Ex α) = .ok a := rfl

theorem overlayLoop_append (l1 l2 : List PyVal) (f f' : List (String × String))
    (h : overlayLoop l1 f = .ok f') :
    overlayLoop (l1 ++ l2) f = overlayLoop l2 f' := by
  induction l1 generalizing f with
  | nil =>
    rw [overlayLoop] at h
    injection h with he
    subst he
    simp
  | cons n rest ih =>
    rw [overlayLoop] at h
    cases hn : overlayNode f n with
    | ok f1 =>
      rw [hn] at h
      simp only [ok_bind] at h
      show overlayLoop (n :: (rest ++ l2)) f = _
      rw [overlayLoop, hn]
      simp only [ok_bind]
      exact ih f1 h
    | exn e => rw [hn] at h; simp only [exn_bind] at h; exact Ex.noConfusion h
    | fuelOut => rw [hn] at h; simp only [fuelOut_bind] at h; exact Ex.noConfusion h

theorem overlayNode_ok (f : List (String × String)) (d : List (String × PyVal)) :
    ∃ f', overlayNode f (.dict d) = .ok f' ∧
      (overridesTitle "positive" d = false → findVal "Prompt" f' = findVal "Prompt" f) ∧
      (∀ w ws, findVal "widgets_values" d = some (.list (w :: ws)) → pyStr w ≠ "" →
        pyEq ((findVal "type" d).getD .none) (.str "PrimitiveNode") = true →
        pyEq ((findVal "title" d).getD .none) (.str "positive") = true →
        f' = setVal "Prompt" (pyStr w) f) := by
  cases hty : pyEq ((findVal "type" d).getD .none) (.str "PrimitiveNode") with
  | false =>
    refine ⟨f, ?_, fun _ => rfl, fun w ws _ _ h _ => Bool.noConfusion h⟩
    simp [overlayNode, liftE, pyGet, hty]
  | true =>
    cases hW : findVal "widgets_values" d with
    | none =>
      have hmem : hasKey "widgets_values" d = false := by simp [hasKey, hW]
      refine ⟨f, ?_, fun _ => rfl, fun w ws hw => Option.noConfusion hw⟩
      simp [overlayNode, liftE, pyGet, pyContains, hty, hmem, hW]
    | some wv =>
      have hmem : hasKey "widgets_values" d = true := by simp [hasKey, hW]
      match wv with
      | .list (w :: ws) =>
        by_cases hv : pyStr w = ""
        · refine ⟨f, ?_, fun _ => rfl, fun w2 ws2 hw2 hv2 _ _ => ?_⟩
          · simp [overlayNode, liftE, pyGet, pyContains, hty, hmem, hW, hv]
          · injection hw2 with he
            injection he with he2
            injection he2 with he3
            rw [← he3] at hv2
            exact absurd hv hv2
        · cases hti : pyEq ((findVal "title" d).getD .none) (.str "positive") with
          | true =>
            refine ⟨setVal "Prompt" (pyStr w) f, ?_, ?_, ?_⟩
            · simp [overlayNode, liftE, pyGet, pyContains, hty, hmem, hW, hv, hti]
            · intro hov
              rw [overridesTitle, hty, hW] at hov
              simp [bne_iff_ne, hv, hti] at hov
            · intro w2 ws2 hw2 _ _ _
              injection hw2 with he
              injection he with he2
              injection he2 with he3
              rw [he3]
          | false =>
            cases htn : pyEq ((findVal "title" d).getD .none) (.str "negative") with
            | true =>
              refine ⟨setVal "Negative Prompt" (pyStr w) f, ?_, ?_,
                fun w2 ws2 _ _ _ h => Bool.noConfusion h⟩
              · simp [overlayNode, liftE, pyGet, pyContains, hty, hmem, hW, hv, hti, htn]
              · intro _
                exact findVal_setVal_other "Prompt" "Negative Prompt" (pyStr w) f
                  (by decide)
            | false =>
              refine ⟨f, ?_, fun _ => rfl,
                fun w2 ws2 _ _ _ h => Bool.noConfusion h⟩
              simp [overlayNode, liftE, pyGet, pyContains, hty, hmem, hW, hv, hti, htn]
      | .list [] =>
        refine ⟨f, ?_, fun _ => rfl, fun w2 ws2 hw2 => ?_⟩
        · simp [overlayNode, liftE, pyGet, pyContains, hty, hmem, hW]
        · injection hw2 with he
          injection he with he2
          exact absurd he2 (by simp)
      | .none =>
        refine ⟨f, ?_, fun _ => rfl, fun w2 ws2 hw2 => ?_⟩
        · simp [overlayNode, liftE, pyGet, pyContains, hty, hmem, hW]
        · injection hw2 with he
          exact PyVal.noConfusion he
      | .bool b =>
        refine ⟨f, ?_, fun _ => rfl, fun w2 ws2 hw2 => ?_⟩
        · simp [overlayNode, liftE, pyGet, pyContains, hty, hmem, hW]
        · injection hw2 with he
          exact PyVal.noConfusion he
      | .int n =>
        refine ⟨f, ?_, fun _ => rfl, fun w2 ws2 hw2 => ?_⟩
        · simp [overlayNode, liftE, pyGet, pyContains, hty, hmem, hW]
        · injection hw2 with he
          exact PyVal.noConfusion he
      | .float q =>
        refine ⟨f, ?_, fun _ => rfl, fun w2 ws2 hw2 => ?_⟩
        · simp [overlayNode, liftE, pyGet, pyContains, hty, hmem, hW]
        · injection hw2 with he
          exact PyVal.noConfusion he
      | .str s =>
        refine ⟨f, ?_, fun _ => rfl, fun w2 ws2 hw2 => ?_⟩
        · simp [overlayNode, liftE, pyGet, pyContains, hty, hmem, hW]
        · injection hw2 with he
          exact PyVal.noConfusion he
      | .dict dd =>
        refine ⟨f, ?_, fun _ => rfl, fun w2 ws2 hw2 => ?_⟩
        · simp [overlayNode, liftE, pyGet, pyContains, hty, hmem, hW]
        · injection hw2 with he
          exact PyVal.noConfusion he


theorem overlayLoop_dicts_ok : ∀ (l : List PyVal) (f : List (String × String)),
    (∀ x ∈ l, ∃ dx, x = .dict dx) → ∃ f', overlayLoop l f = .ok f' := by
  intro l
  induction l with
  | nil => intro f _; exact ⟨f, rfl⟩
  | cons n rest ih =>
    intro f hl
    obtain ⟨dx, hdx⟩ := hl n (List.mem_cons_self n rest)
    subst hdx
    obtain ⟨f1, hf1, _, _⟩ := overlayNode_ok f dx
    obtain ⟨f2, hf2⟩ := ih f1 (fun x hx => hl x (List.mem_cons_of_mem _ hx))
    exact ⟨f2, by rw [overlayLoop, hf1]; simpa using hf2⟩

theorem overlayLoop_preserve : ∀ (l : List PyVal) (f : List (String × String)),
    (∀ x ∈ l, ∃ dx, x = .dict dx ∧ overridesTitle "positive" dx = false) →
    ∃ f', overlayLoop l f = .ok f' ∧ findVal "Prompt" f' = findVal "Prompt" f := by
  intro l
  induction l with
  | nil => intro f _; exact ⟨f, rfl, rfl⟩
  | cons n rest ih =>
    intro f hl
    obtain ⟨dx, hdx, hov⟩ := hl n (List.mem_cons_self n rest)
    subst hdx
    obtain ⟨f1, hf1, hp, _⟩ := overlayNode_ok f dx
    obtain ⟨f2, hf2, hp2⟩ := ih f1 (fun x hx => hl x (List.mem_cons_of_mem _ hx))
    refine ⟨f2, ?_, by rw [hp2, hp hov]⟩
    rw [overlayLoop, hf1]
    simpa using hf2

theorem overlayNode_ok_neg (f : List (String × String)) (d : List (String × PyVal)) :
    ∃ f', overlayNode f (.dict d) = .ok f' ∧
      (overridesTitle "negative" d = false →
        findVal "Negative Prompt" f' = findVal "Negative Prompt" f) ∧
      (∀ w ws, findVal "widgets_values" d = some (.list (w :: ws)) → pyStr w ≠ "" →
        pyEq ((findVal "type" d).getD .none) (.str "PrimitiveNode") = true →
        pyEq ((findVal "title" d).getD .none) (.str "positive") = false →
        pyEq ((findVal "title" d).getD .none) (.str "negative") = true →
        f' = setVal "Negative Prompt" (pyStr w) f) := by
  cases hty : pyEq ((findVal "type" d).getD .none) (.str "PrimitiveNode") with
  | false =>
    refine ⟨f, ?_, fun _ => rfl, fun w ws _ _ h _ _ => Bool.noConfusion h⟩
    simp [overlayNode, liftE, pyGet, hty]
  | true =>
    cases hW : findVal "widgets_values" d with
    | none =>
      have hmem : hasKey "widgets_values" d = false := by simp [hasKey, hW]
      refine ⟨f, ?_, fun _ => rfl, fun w ws hw => Option.noConfusion hw⟩
      simp [overlayNode, liftE, pyGet, pyContains, hty, hmem, hW]
    | some wv =>
      have hmem : hasKey "widgets_values" d = true := by simp [hasKey, hW]
      match wv with
      | .list (w :: ws) =>
        by_cases hv : pyStr w = ""
        · refine ⟨f, ?_, fun _ => rfl, fun w2 ws2 hw2 hv2 _ _ _ => ?_⟩
          · simp [overlayNode, liftE, pyGet, pyContains, hty, hmem, hW, hv]
          · injection hw2 with he
            injection he with he2
            injection he2 with he3
            rw [← he3] at hv2
            exact absurd hv hv2
        · cases hti : pyEq ((findVal "title" d).getD .none) (.str "positive") with
          | true =>
            refine ⟨setVal "Prompt" (pyStr w) f, ?_,
              fun _ => findVal_setVal_other "Negative Prompt" "Prompt" (pyStr w) f
                (by decide),
              fun w2 ws2 _ _ _ hp _ => Bool.noConfusion hp⟩
            simp [overlayNode, liftE, pyGet, pyContains, hty, hmem, hW, hv, hti]
          | false =>
            cases htn : pyEq ((findVal "title" d).getD .none) (.str "negative") with
            | true =>
              refine ⟨setVal "Negative Prompt" (pyStr w) f, ?_, ?_, ?_⟩
              · simp [overlayNode, liftE, pyGet, pyContains, hty, hmem, hW, hv, hti, htn]
              · intro hov
                rw [overridesTitle, hty, hW, htn] at hov
                simp [bne_iff_ne, hv] at hov
              · intro w2 ws2 hw2 _ _ _ _
                injection hw2 with he
                injection he with he2
                injection he2 with he3
                rw [he3]
            | false =>
              refine ⟨f, ?_, fun _ => rfl,
                fun w2 ws2 _ _ _ _ h => Bool.noConfusion h⟩
              simp [overlayNode, liftE, pyGet, pyContains, hty, hmem, hW, hv, hti, htn]
      | .list [] =>
        refine ⟨f, ?_, fun _ => rfl, fun w2 ws2 hw2 => ?_⟩
        · simp [overlayNode, liftE, pyGet, pyContains, hty, hmem, hW]
        · injection hw2 with he
          injection he with he2
          exact absurd he2 (by simp)
      | .none =>
        refine ⟨f, ?_, fun _ => rfl, fun w2 ws2 hw2 => ?_⟩
        · simp [overlayNode, liftE, pyGet, pyContains, hty, hmem, hW]
        · injection hw2 with he
          exact PyVal.noConfusion he
      | .bool b =>
        refine ⟨f, ?_, fun _ => rfl, fun w2 ws2 hw2 => ?_⟩
        · simp [overlayNode, liftE, pyGet, pyContains, hty, hmem, hW]
        · injection hw2 with he
          exact PyVal.noConfusion he
      | .int n =>
        refine ⟨f, ?_, fun _ => rfl, fun w2 ws2 hw2 => ?_⟩
        · simp [overlayNode, liftE, pyGet, pyContains, hty, hmem, hW]
        · injection hw2 with he
          exact PyVal.noConfusion he
      | .float q =>
        refine ⟨f, ?_, fun _ => rfl, fun w2 ws2 hw2 => ?_⟩
        · simp [overlayNode, liftE, pyGet, pyContains, hty, hmem, hW]
        · injection hw2 with he
          exact PyVal.noConfusion he
      | .str s =>
        refine ⟨f, ?_, fun _ => rfl, fun w2 ws2 hw2 => ?_⟩
        · simp [overlayNode, liftE, pyGet, pyContains, hty, hmem, hW]
        · injection hw2 with he
          exact PyVal.noConfusion he
      | .dict dd =>
        refine ⟨f, ?_, fun _ => rfl, fun w2 ws2 hw2 => ?_⟩
        · simp [overlayNode, liftE, pyGet, pyContains, hty, hmem, hW]
        · injection hw2 with he
          exact PyVal.noConfusion he

theorem overlayLoop_preserve_neg : ∀ (l : List PyVal) (f : List (String × String)),
    (∀ x ∈ l, ∃ dx, x = .dict dx ∧ overridesTitle "negative" dx = false) →
    ∃ f', overlayLoop l f = .ok f' ∧
      findVal "Negative Prompt" f' = findVal "Negative Prompt" f := by
  intro l
  induction l with
  | nil => intro f _; exact ⟨f, rfl, rfl⟩
  | cons n rest ih =>
    intro f hl
    obtain ⟨dx, hdx, hov⟩ := hl n (List.mem_cons_self n rest)
    subst hdx
    obtain ⟨f1, hf1, hp, _⟩ := overlayNode_ok_neg f dx
    obtain ⟨f2, hf2, hp2⟩ := ih f1 (fun x hx => hl x (List.mem_cons_of_mem _ hx))
    refine ⟨f2, ?_, by rw [hp2, hp hov]⟩
    rw [overlayLoop, hf1]
    simpa using hf2

theorem overlayNode_nondict (f : List (String × String)) (x : PyVal)
    (hx : ∀ dx, x ≠ .dict dx) :
    overlayNode f x = .exn (.attributeError "object has no attribute get") := by
  cases x with
  | dict d => exact absurd rfl (hx d)
  | none => simp [overlayNode, liftE, pyGet]
  | bool b => simp [overlayNode, liftE, pyGet]
  | int n => simp [overlayNode, liftE, pyGet]
  | float q => simp [overlayNode, liftE, pyGet]
  | str s => simp [overlayNode, liftE, pyGet]
  | list xs => simp [overlayNode, liftE, pyGet]

/-- Positive half of the override: a `positive` PrimitiveNode with a
truthy first widget value, last such node in the list, force-sets
`Result["Prompt"]` to its string form. -/
theorem overlay_positive_sets_prompt
    (fuel : Nat) (pd : Option (List (String × PyVal)))
    (wentries : List (String × PyVal)) (pre post : List PyVal)
    (nd : List (String × PyVal)) (w : PyVal) (ws : List PyVal)
    (hps : ∃ ps, comfyPart1 fuel (promptGraphOf pd) = .ok ps)
    (hnodes : findVal "nodes" wentries = some (.list (pre ++ .dict nd :: post)))
    (hpre : ∀ x ∈ pre, ∃ dx, x = .dict dx)
    (hty : findVal "type" nd = some (.str "PrimitiveNode"))
    (hti : findVal "title" nd = some (.str "positive"))
    (hw : findVal "widgets_values" nd = some (.list (w :: ws)))
    (hv : pyStr w ≠ "")
    (hpost : ∀ x ∈ post, ∃ dx, x = .dict dx ∧ overridesTitle "positive" dx = false) :
    findVal "Prompt" (comfyui_get_data fuel pd (some wentries)) = some (pyStr w) := by
  obtain ⟨ps, hps⟩ := hps
  have hwne : wentries.isEmpty = false := by
    cases wentries with
    | nil => simp [findVal] at hnodes
    | cons a l => rfl
  have hex : ∃ eps, (if !(promptGraphOf pd).isEmpty then comfyPart1 fuel (promptGraphOf pd)
      else .ok []) = Ex.ok eps := by
    cases hpg : (promptGraphOf pd).isEmpty with
    | true => exact ⟨[], by simp [hpg]⟩
    | false => exact ⟨ps, by simp [hpg, hps]⟩
  obtain ⟨eps, heps⟩ := hex
  have hpe1 : pyEq ((findVal "type" nd).getD .none) (.str "PrimitiveNode") = true := by
    rw [hty]; rfl
  have hpe2 : pyEq ((findVal "title" nd).getD .none) (.str "positive") = true := by
    rw [hti]; rfl
  obtain ⟨f1, hf1⟩ := overlayLoop_dicts_ok pre (buildFinal eps) hpre
  have hnode_eq : overlayNode f1 (.dict nd) = .ok (setVal "Prompt" (pyStr w) f1) := by
    obtain ⟨f', hf', _, hset⟩ := overlayNode_ok f1 nd
    rw [hf', hset w ws hw hv hpe1 hpe2]
  obtain ⟨f3, hf3, hf3p⟩ := overlayLoop_preserve post (setVal "Prompt" (pyStr w) f1) hpost
  have hloop : overlayLoop (pre ++ .dict nd :: post) (buildFinal eps) = .ok f3 := by
    rw [overlayLoop_append pre (.dict nd :: post) (buildFinal eps) f1 hf1, overlayLoop,
      hnode_eq]
    simpa using hf3
  have hmem : hasKey "nodes" wentries = true := by simp [hasKey, hnodes]
  have hover : comfyOverlay (.dict wentries) (buildFinal eps) = .ok f3 := by
    simp [comfyOverlay, pyTruthy, hwne, liftE, pyContains, hmem, pyGet, hnodes, hloop]
  have hbody : comfyBody fuel (promptGraphOf pd) (.dict wentries) = .ok f3 := by
    unfold comfyBody
    cases hpg : (promptGraphOf pd).isEmpty with
    | true =>
      rw [hpg] at heps
      simp at heps
      subst heps
      simpa [hpg] using hover
    | false =>
      rw [hpg] at heps
      simp at heps
      simpa [hpg, heps] using hover
  simp [comfyui_get_data, workflowGraphOf, pyTruthy, hwne, hbody, hf3p]

/-- Negative half of the override: a `negative` PrimitiveNode with a
truthy first widget value, last such node in the list, force-sets
`Result["Negative Prompt"]` to its string form. -/
theorem overlay_negative_sets_negprompt
    (fuel : Nat) (pd : Option (List (String × PyVal)))
    (wentries : List (String × PyVal)) (pre post : List PyVal)
    (nd : List (String × PyVal)) (w : PyVal) (ws : List PyVal)
    (hps : ∃ ps, comfyPart1 fuel (promptGraphOf pd) = .ok ps)
    (hnodes : findVal "nodes" wentries = some (.list (pre ++ .dict nd :: post)))
    (hpre : ∀ x ∈ pre, ∃ dx, x = .dict dx)
    (hty : findVal "type" nd = some (.str "PrimitiveNode"))
    (hti : findVal "title" nd = some (.str "negative"))
    (hw : findVal "widgets_values" nd = some (.list (w :: ws)))
    (hv : pyStr w ≠ "")
    (hpost : ∀ x ∈ post, ∃ dx, x = .dict dx ∧ overridesTitle "negative" dx = false) :
    findVal "Negative Prompt" (comfyui_get_data fuel pd (some wentries)) =
      some (pyStr w) := by
  obtain ⟨ps, hps⟩ := hps
  have hwne : wentries.isEmpty = false := by
    cases wentries with
    | nil => simp [findVal] at hnodes
    | cons a l => rfl
  have hex : ∃ eps, (if !(promptGraphOf pd).isEmpty then comfyPart1 fuel (promptGraphOf pd)
      else .ok []) = Ex.ok eps := by
    cases hpg : (promptGraphOf pd).isEmpty with
    | true => exact ⟨[], by simp [hpg]⟩
    | false => exact ⟨ps, by simp [hpg, hps]⟩
  obtain ⟨eps, heps⟩ := hex
  have hpe1 : pyEq ((findVal "type" nd).getD .none) (.str "PrimitiveNode") = true := by
    rw [hty]; rfl
  have hpe2 : pyEq ((findVal "title" nd).getD .none) (.str "positive") = false := by
    rw [hti]; rfl
  have hpe3 : pyEq ((findVal "title" nd).getD .none) (.str "negative") = true := by
    rw [hti]; rfl
  obtain ⟨f1, hf1⟩ := overlayLoop_dicts_ok pre (buildFinal eps) hpre
  have hnode_eq : overlayNode f1 (.dict nd) = .ok (setVal "Negative Prompt" (pyStr w) f1) := by
    obtain ⟨f', hf', _, hset⟩ := overlayNode_ok_neg f1 nd
    rw [hf', hset w ws hw hv hpe1 hpe2 hpe3]
  obtain ⟨f3, hf3, hf3p⟩ :=
    overlayLoop_preserve_neg post (setVal "Negative Prompt" (pyStr w) f1) hpost
  have hloop : overlayLoop (pre ++ .dict nd :: post) (buildFinal eps) = .ok f3 := by
    rw [overlayLoop_append pre (.dict nd :: post) (buildFinal eps) f1 hf1, overlayLoop,
      hnode_eq]
    simpa using hf3
  have hmem : hasKey "nodes" wentries = true := by simp [hasKey, hnodes]
  have hover : comfyOverlay (.dict wentries) (buildFinal eps) = .ok f3 := by
    simp [comfyOverlay, pyTruthy, hwne, liftE, pyContains, hmem, pyGet, hnodes, hloop]
  have hbody : comfyBody fuel (promptGraphOf pd) (.dict wentries) = .ok f3 := by
    unfold comfyBody
    cases hpg : (promptGraphOf pd).isEmpty with
    | true =>
      rw [hpg] at heps
      simp at heps
      subst heps
      simpa [hpg] using hover
    | false =>
      rw [hpg] at heps
      simp at heps
      simpa [hpg, heps] using hover
  simp [comfyui_get_data, workflowGraphOf, pyTruthy, hwne, hbody, hf3p]

/-- Abort half: a non-dict entry in the node list raises `AttributeError`
at `node.get('type')`, which the top-level handler turns into the empty
Result. -/
theorem overlay_nondict_aborts (fuel : Nat) (pd : Option (List (String × PyVal)))
    (wentries : List (String × PyVal)) (pre post : List PyVal) (x : PyVal)
    (hps : ∃ ps, comfyPart1 fuel (promptGraphOf pd) = .ok ps)
    (hnodes : findVal "nodes" wentries = some (.list (pre ++ x :: post)))
    (hpre : ∀ y ∈ pre, ∃ dy, y = .dict dy)
    (hx : ∀ dx, x ≠ .dict dx) :
    comfyui_get_data fuel pd (some wentries) = [] := by
  obtain ⟨ps, hps⟩ := hps
  have hwne : wentries.isEmpty = false := by
    cases wentries with
    | nil => simp [findVal] at hnodes
    | cons a l => rfl
  have hex : ∃ eps, (if !(promptGraphOf pd).isEmpty then comfyPart1 fuel (promptGraphOf pd)
      else .ok []) = Ex.ok eps := by
    cases hpg : (promptGraphOf pd).isEmpty with
    | true => exact ⟨[], by simp [hpg]⟩
    | false => exact ⟨ps, by simp [hpg, hps]⟩
  obtain ⟨eps, heps⟩ := hex
  obtain ⟨f1, hf1⟩ := overlayLoop_dicts_ok pre (buildFinal eps) hpre
  have hloop : overlayLoop (pre ++ x :: post) (buildFinal eps) =
      .exn (.attributeError "object has no attribute get") := by
    rw [overlayLoop_append pre (x :: post) (buildFinal eps) f1 hf1, overlayLoop,
      overlayNode_nondict f1 x hx]
    rfl
  have hmem : hasKey "nodes" wentries = true := by simp [hasKey, hnodes]
  have hover : comfyOverlay (.dict wentries) (buildFinal eps) =
      .exn (.attributeError "object has no attribute get") := by
    simp [comfyOverlay, pyTruthy, hwne, liftE, pyContains, hmem, pyGet, hnodes, hloop]
  have hbody : comfyBody fuel (promptGraphOf pd) (.dict wentries) =
      .exn (.attributeError "object has no attribute get") := by
    unfold comfyBody
    cases hpg : (promptGraphOf pd).isEmpty with
    | true =>
      rw [hpg] at heps
      simp at heps
      subst heps
      simpa [hpg] using hover
    | false =>
      rw [hpg] at heps
      simp at heps
      simpa [hpg, heps] using hover
  simp [comfyui_get_data, workflowGraphOf, pyTruthy, hwne, hbody]

/-- Claim C4 amended: a `positive` (resp. `negative`) PrimitiveNode in
the UI graph's node list force-sets `Result["Prompt"]` (resp.
`Result["Negative Prompt"]`) to the string form of its first widget
value, overriding anything computed from the executable graph — provided
that string form is non-empty (Python truthiness: an empty-string widget
does not override), that it is the last such overriding node, that the
node-list entries are dicts, and that the executable-graph part completes
normally; a non-dict entry in the node list instead aborts the whole
extraction to the empty Result. -/
theorem c4_primitive_overlay_overrides :
    (∀ (fuel : Nat) (pd : Option (List (String × PyVal)))
      (wentries : List (String × PyVal)) (pre post : List PyVal)
      (nd : List (String × PyVal)) (w : PyVal) (ws : List PyVal),
      (∃ ps, comfyPart1 fuel (promptGraphOf pd) = .ok ps) →
      findVal "nodes" wentries = some (.list (pre ++ .dict nd :: post)) →
      (∀ x ∈ pre, ∃ dx, x = .dict dx) →
      findVal "type" nd = some (.str "PrimitiveNode") →
      findVal "title" nd = some (.str "positive") →
      findVal "widgets_values" nd = some (.list (w :: ws)) →
      pyStr w ≠ "" →
      (∀ x ∈ post, ∃ dx, x = .dict dx ∧ overridesTitle "positive" dx = false) →
      findVal "Prompt" (comfyui_get_data fuel pd (some wentries)) = some (pyStr w)) ∧
    (∀ (fuel : Nat) (pd : Option (List (String × PyVal)))
      (wentries : List (String × PyVal)) (pre post : List PyVal)
      (nd : List (String × PyVal)) (w : PyVal) (ws : List PyVal),
      (∃ ps, comfyPart1 fuel (promptGraphOf pd) = .ok ps) →
      findVal "nodes" wentries = some (.list (pre ++ .dict nd :: post)) →
      (∀ x ∈ pre, ∃ dx, x = .dict dx) →
      findVal "type" nd = some (.str "PrimitiveNode") →
      findVal "title" nd = some (.str "negative") →
      findVal "widgets_values" nd = some (.list (w :: ws)) →
      pyStr w ≠ "" →
      (∀ x ∈ post, ∃ dx, x = .dict dx ∧ overridesTitle "negative" dx = false) →
      findVal "Negative Prompt" (comfyui_get_data fuel pd (some wentries)) =
        some (pyStr w)) ∧
    (∀ (fuel : Nat) (pd : Option (List (String × PyVal)))
      (wentries : List (String × PyVal)) (pre post : List PyVal) (x : PyVal),
      (∃ ps, comfyPart1 fuel (promptGraphOf pd) = .ok ps) →
      findVal "nodes" wentries = some (.list (pre ++ x :: post)) →
      (∀ y ∈ pre, ∃ dy, y = .dict dy) →
      (∀ dx, x ≠ .dict dx) →
      comfyui_get_data fuel pd (some wentries) = []) :=
  ⟨fun fuel pd wentries pre post nd w ws hps hnodes hpre hty hti hw hv hpost =>
    overlay_positive_sets_prompt fuel pd wentries pre post nd w ws hps hnodes hpre
      hty hti hw hv hpost,
   fun fuel pd wentries pre post nd w ws hps hnodes hpre hty hti hw hv hpost =>
    overlay_negative_sets_negprompt fuel pd wentries pre post nd w ws hps hnodes hpre
      hty hti hw hv hpost,
   fun fuel pd wentries pre post x hps hnodes hpre hx =>
    overlay_nondict_aborts fuel pd wentries pre post x hps hnodes hpre hx⟩

/-- Claim C4 counterexample: a `positive` PrimitiveNode with at least one
widget value whose string form is empty does not override — the claim
would force `Result["Prompt"] = ""`, but the key is not set at all. -/
theorem c4_empty_widget_no_override :
    findVal "Prompt" (comfyui_get_data 10 Option.none (some wfEmptyWidget)) =
      Option.none ∧
    (Option.none : Option String) ≠ some (pyStr (.str "")) := ⟨rfl, by simp⟩

/-- Witness for C4 amended: the spec's own overlay example (a `positive`
PrimitiveNode with widget value `"cats"`), its `negative` twin with
`"ugly"`, and a node list holding a bare `int`, which aborts to the empty
Result. -/
theorem c4_primitive_overlay_witness :
    findVal "Prompt" (comfyui_get_data 10 Option.none (some wfCats)) = some "cats" ∧
    findVal "Negative Prompt" (comfyui_get_data 10 Option.none (some wfNegCats)) =
      some "ugly" ∧
    comfyui_get_data 10 Option.none (some wfBadNode) = [] := by
  refine ⟨?_, ?_, ?_⟩
  · exact c4_primitive_overlay_overrides.1 10 Option.none wfCats [] []
      [("type", .str "PrimitiveNode"), ("title", .str "positive"),
       ("widgets_values", .list [.str "cats"])] (.str "cats") []
      ⟨[], rfl⟩ rfl (fun x hx => absurd hx (List.not_mem_nil x)) rfl rfl rfl
      (by decide) (fun x hx => absurd hx (List.not_mem_nil x))
  · exact c4_primitive_overlay_overrides.2.1 10 Option.none wfNegCats [] []
      [("type", .str "PrimitiveNode"), ("title", .str "negative"),
       ("widgets_values", .list [.str "ugly"])] (.str "ugly") []
      ⟨[], rfl⟩ rfl (fun x hx => absurd hx (List.not_mem_nil x)) rfl rfl rfl
      (by decide) (fun x hx => absurd hx (List.not_mem_nil x))
  · exact c4_primitive_overlay_overrides.2.2 10 Option.none wfBadNode [] [] (.int 5)
      ⟨[], rfl⟩ rfl (fun y hy => absurd hy (List.not_mem_nil y))
      (fun dx h => PyVal.noConfusion h)

end ComfyParser
